import Mathlib

set_option maxRecDepth 8000
set_option synthInstance.maxSize 2000

/-!
Shallow embedding of the securefs full-format B-tree directory engine,
`src/sources/btree_dir.cpp`, and verification of the spec's claims about it.

Modelling conventions:
* Machine integers are `Nat` with explicit `% 2^32` (`u32`) / `% 2^16` (`u16c`)
  where the source's `uint32_t` / `uint16_t` arithmetic can wrap.
* The paged stream is a `List` of blocks (each a `List` of byte values); every
  read/write issued by `btree_dir.cpp` is one whole block at a page boundary,
  so block granularity is exact.  A read past the end returns fewer bytes than
  requested in the source and fails its `dir_check`, modelled as `corrupted`.
* The node cache of the source is an `unordered_map` from page number to an
  owning pointer.  The engine passes raw pointers; pointer identity is stable.
  We model the cache as an association list keyed by page number and replace
  "mutation through a `Node*`" by `modifyNode page f`; every such pointer in
  the source refers to a node present in the cache.
* Stateful, throwing code runs in `DirM := StateT DirState (Except DirErr)`.
* `BtreeNode`'s accessors (`is_leaf`, `mutable_entries` marking the dirty
  flag, the one-argument default of `adjust_children_in_cache`) and the
  constants live in `btree_dir.h`, which is not part of the sources; they are
  modelled from the spec (section 3 and 9): a node is a leaf iff it has no
  children, every `mutable_*` access marks the node dirty, and the injected
  comparator `Config.lessThan` orders entries by filename.  `BLOCK_SIZE`,
  `MAX_FILENAME_LENGTH`, the id width and `MAX_NUM_ENTRIES` are parameters of
  `Config`, as the spec prescribes deriving them per filesystem.
* `std::lower_bound` is modelled by its contract: the first position whose
  element is not less than the value (the source's call sites require the
  partitioned precondition; on unpartitioned data the source is unspecified).
* Out-of-range `.at` throws `std::out_of_range`, modelled as `outOfRange`.
  Unchecked `operator[]`, `.back()`/`.front()` on empty vectors, and erasing
  `end()` are undefined behaviour in the source; they are modelled as thrown
  errors and are never reached in the proved executions.
* Uninitialised trailing buffer bytes (after the encoded payload of a node,
  and after the NUL of a serialised filename) are modelled as zero; the
  decoder never reads past the payload or the first NUL, so no claim depends
  on this choice.
-/

abbrev Byte := Nat

def INVALID_PAGE : Nat := 4294967295

def BTREE_MAX_DEPTH : Nat := 32

def u32 (n : Nat) : Nat := n % 4294967296

def u16c (n : Nat) : Nat := n % 65536

def fromLE (l : List Byte) : Nat := l.foldr (fun b acc => b + 256 * acc) 0

def toLE4 (n : Nat) : List Byte := [n % 256, n / 256 % 256, n / 65536 % 256, n / 16777216 % 256]

def toLE2 (n : Nat) : List Byte := [n % 256, n / 256 % 256]

/-- DirEntry of `btree_dir.h` (modelled from the spec: filename, fixed-width
id, `uint32_t` type).  Strings are byte lists. -/
structure DirEntry where
  filename : List Byte
  id : List Byte
  type : Nat
deriving DecidableEq

/-- In-memory B-tree node (`BtreeNode`): page number, parent page number,
entries, child page numbers, dirty flag. -/
structure BtreeNode where
  page_number : Nat
  parent_page_number : Nat
  entries : List DirEntry
  child_indices : List Nat
  dirty : Bool
deriving DecidableEq

/-- The constants of `btree_dir.h` / the surrounding directory object,
modelled from the spec: block size, maximum filename length, id width,
maximum entries per node, and the injected filename comparator (a strict
less-than). -/
structure Config where
  blockSize : Nat
  maxFilenameLength : Nat
  idSize : Nat
  maxNumEntries : Nat
  lessThan : List Byte → List Byte → Bool

/-- Whole mutable state of a `BtreeDirectory`: the paged stream (list of
blocks), the three header scalars, and the node cache. -/
structure DirState where
  stream : List (List Byte)
  rootPage : Nat
  startFreePage : Nat
  numFreePage : Nat
  cache : List (Nat × BtreeNode)
deriving DecidableEq

inductive DirErr where
  | corrupted
  | nameTooLong
  | outOfRange
deriving DecidableEq

deriving instance DecidableEq for Except

abbrev DirM (α : Type) := StateT DirState (Except DirErr) α

def dirCheck (b : Bool) : DirM Unit :=
  if b then pure () else throw DirErr.corrupted

def cacheFind : List (Nat × BtreeNode) → Nat → Option BtreeNode
  | [], _ => none
  | (k, n) :: rest, num => if k = num then some n else cacheFind rest num

def cacheInsert (c : List (Nat × BtreeNode)) (num : Nat) (n : BtreeNode) :
    List (Nat × BtreeNode) :=
  c ++ [(num, n)]

def cacheUpdate (c : List (Nat × BtreeNode)) (num : Nat) (f : BtreeNode → BtreeNode) :
    List (Nat × BtreeNode) :=
  c.map (fun p => if p.1 = num then (p.1, f p.2) else p)

def cacheErase (c : List (Nat × BtreeNode)) (num : Nat) : List (Nat × BtreeNode) :=
  c.filter (fun p => p.1 ≠ num)

def getRootPage : DirM Nat := do pure (← get).rootPage

def setRootPage (p : Nat) : DirM Unit := modify fun st => { st with rootPage := p }

def getStartFreePage : DirM Nat := do pure (← get).startFreePage

def setStartFreePage (p : Nat) : DirM Unit := modify fun st => { st with startFreePage := p }

def getNumFreePage : DirM Nat := do pure (← get).numFreePage

def setNumFreePage (p : Nat) : DirM Unit := modify fun st => { st with numFreePage := p }

/-- Dereference a `BtreeNode*` held by the source: the node is in the cache at
its page number.  (All pointers the source holds point into the cache; the
`corrupted` branch is unreachable in the executions we prove about.) -/
def getNode (num : Nat) : DirM BtreeNode := do
  match cacheFind (← get).cache num with
  | some n => pure n
  | none => throw DirErr.corrupted

/-- Mutation through a `BtreeNode*` into the cache. -/
def modifyNode (num : Nat) (f : BtreeNode → BtreeNode) : DirM Unit :=
  modify fun st => { st with cache := cacheUpdate st.cache num f }

/-- `container.at(i)`: bounds-checked element access (`std::out_of_range`). -/
def atIdx {α : Type} (l : List α) (i : Nat) : DirM α :=
  match l.get? i with
  | some x => pure x
  | none => throw DirErr.outOfRange

/-- `.back()`; undefined behaviour on an empty vector, modelled as a throw. -/
def backM {α : Type} (l : List α) : DirM α := atIdx l (l.length - 1)

/-- `.front()`; undefined behaviour on an empty vector, modelled as a throw. -/
def frontM {α : Type} (l : List α) : DirM α := atIdx l 0

/-- `vector::insert(begin() + i, x)`. -/
def insIdx {α : Type} : List α → Nat → α → List α
  | l, 0, x => x :: l
  | [], _ + 1, x => [x]
  | a :: l, i + 1, x => a :: insIdx l i x

/-- `vector::erase(begin() + i)`. -/
def delIdx {α : Type} : List α → Nat → List α
  | [], _ => []
  | _ :: l, 0 => l
  | a :: l, i + 1 => a :: delIdx l i

/-- In-place assignment `v.at(i) = x`. -/
def setIdx {α : Type} : List α → Nat → α → List α
  | [], _, _ => []
  | _ :: l, 0, x => x :: l
  | a :: l, i + 1, x => a :: setIdx l i x

def listIndexOf : List Nat → Nat → Option Nat
  | [], _ => none
  | a :: l, x => if a = x then some 0 else (listIndexOf l x).map (· + 1)

def zeroBlock (cfg : Config) : List Byte := List.replicate cfg.blockSize 0

/-- One whole-block read at page `p`; a short read fails `dir_check`. -/
def streamReadBlock (p : Nat) : DirM (List Byte) := do
  match (← get).stream.get? p with
  | some b => pure b
  | none => throw DirErr.corrupted

def writeBlockAt (cfg : Config) (s : List (List Byte)) (p : Nat) (b : List Byte) :
    List (List Byte) :=
  if p < s.length then s.set p b
  else s ++ List.replicate (p - s.length) (zeroBlock cfg) ++ [b]

/-- One whole-block write at page `p`; writing past the end extends the
sparse stream (zero-filled). -/
def streamWriteBlock (cfg : Config) (p : Nat) (b : List Byte) : DirM Unit :=
  modify fun st => { st with stream := writeBlockAt cfg st.stream p b }

/-- `m_stream->resize(n * BLOCK_SIZE)`: truncate or zero-extend to `n` blocks. -/
def streamResize (cfg : Config) (n : Nat) : DirM Unit :=
  modify fun st =>
    { st with stream := st.stream.take n ++ List.replicate (n - st.stream.length) (zeroBlock cfg) }

/-- `BtreeDirectory::read_free_page` (btree_dir.cpp:98): returns `(next, prev)`. -/
def read_free_page (cfg : Config) (num : Nat) : DirM (Nat × Nat) := do
  let buffer ← streamReadBlock num
  let _ ← dirCheck (buffer.length = cfg.blockSize)
  if fromLE (buffer.take 4) ≠ 0 then throw DirErr.corrupted
  else pure (fromLE ((buffer.drop 4).take 4), fromLE ((buffer.drop 8).take 4))

/-- `BtreeDirectory::write_free_page` (btree_dir.cpp:108). -/
def write_free_page (cfg : Config) (num nxt prv : Nat) : DirM Unit :=
  streamWriteBlock cfg num
    ([0, 0, 0, 0] ++ toLE4 nxt ++ toLE4 prv ++ List.replicate (cfg.blockSize - 12) 0)

/-- `BtreeDirectory::allocate_page` (btree_dir.cpp:116). -/
def allocate_page (cfg : Config) : DirM Nat := do
  let pg ← getStartFreePage
  if pg = INVALID_PAGE then
    let len := (← get).stream.length
    let result := u32 len
    streamResize cfg (len + 1)
    pure result
  else do
    let fp ← read_free_page cfg pg
    setNumFreePage (u32 ((← getNumFreePage) + 4294967295))
    setStartFreePage fp.1
    if fp.1 ≠ INVALID_PAGE then do
      let fp2 ← read_free_page cfg fp.1
      let sfp ← getStartFreePage
      write_free_page cfg sfp fp2.1 INVALID_PAGE
      pure pg
    else
      pure pg

/-- `BtreeDirectory::deallocate_page` (btree_dir.cpp:138).  Note the source's
special case fires only when `num * BLOCK_SIZE == m_stream->size()`, and then
resizes to `(num - 1) * BLOCK_SIZE` with `uint32_t` wrap-around on `num - 1`. -/
def deallocate_page (cfg : Config) (num : Nat) : DirM Unit := do
  let sz := (← get).stream.length * cfg.blockSize
  if num * cfg.blockSize = sz then
    streamResize cfg (u32 (num + 4294967295))
  else do
    let sfp ← getStartFreePage
    write_free_page cfg num sfp INVALID_PAGE
    let start ← getStartFreePage
    if start ≠ INVALID_PAGE then do
      let fp ← read_free_page cfg start
      write_free_page cfg start fp.1 num
    else pure ()
    setStartFreePage num
    setNumFreePage (u32 ((← getNumFreePage) + 1))

/-- Bounds-checked buffer consumption: every `read_*_and_forward` of the
source checks `buffer + size <= end` (`dir_check`), i.e. `corrupted` on
overrun. -/
def takeExact (k : Nat) (l : List Byte) : Except DirErr (List Byte × List Byte) :=
  if k ≤ l.length then Except.ok (l.take k, l.drop k) else Except.error DirErr.corrupted

def readChildrenLoop : Nat → List Byte → Except DirErr (List Nat × List Byte)
  | 0, l => Except.ok ([], l)
  | k + 1, l => do
    let (b, r) ← takeExact 4 l
    let (cs, r') ← readChildrenLoop k r
    Except.ok (fromLE b :: cs, r')

/-- `filename.back() = 0; e.filename = filename.data()`: force the last byte
to NUL, then read the C string up to the first NUL. -/
def decodeFilename (cfg : Config) (raw : List Byte) : List Byte :=
  ((raw.take cfg.maxFilenameLength) ++ [0]).takeWhile (fun b => b ≠ 0)

def readEntriesLoop (cfg : Config) : Nat → List Byte → Except DirErr (List DirEntry × List Byte)
  | 0, l => Except.ok ([], l)
  | k + 1, l => do
    let (fn, r) ← takeExact (cfg.maxFilenameLength + 1) l
    let (idb, r2) ← takeExact cfg.idSize r
    let (tyb, r3) ← takeExact 4 r2
    let (es, r') ← readEntriesLoop cfg k r3
    Except.ok (⟨decodeFilename cfg fn, idb, fromLE tyb⟩ :: es, r')

/-- `BtreeNode::from_buffer` (btree_dir.cpp:163): decode a block into
(entries, children).  A zero flag leaves the node empty; any other flag is
parsed as a live node. -/
def from_buffer (cfg : Config) (buf : List Byte) : Except DirErr (List DirEntry × List Nat) := do
  let (flagB, r) ← takeExact 4 buf
  if fromLE flagB = 0 then Except.ok ([], [])
  else do
    let (cnB, r2) ← takeExact 2 r
    let (enB, r3) ← takeExact 2 r2
    let (children, r4) ← readChildrenLoop (fromLE cnB) r3
    let (entries, _) ← readEntriesLoop cfg (fromLE enB) r4
    Except.ok (entries, children)

/-- Filename serialisation of `BtreeNode::to_buffer`: reject over-long names
(`ENAMETOOLONG`), then the name, its NUL terminator, and zero padding to
`MAX_FILENAME_LENGTH + 1` bytes. -/
def encodeFilename (cfg : Config) (name : List Byte) : Except DirErr (List Byte) :=
  if name.length > cfg.maxFilenameLength then Except.error DirErr.nameTooLong
  else Except.ok (name ++ List.replicate (cfg.maxFilenameLength + 1 - name.length) 0)

def encodeEntries (cfg : Config) : List DirEntry → Except DirErr (List Byte)
  | [] => Except.ok []
  | e :: es => do
    let fn ← encodeFilename cfg e.filename
    let rest ← encodeEntries cfg es
    Except.ok (fn ++ e.id ++ toLE4 e.type ++ rest)

/-- `BtreeNode::to_buffer` (btree_dir.cpp:190): flag 1, `uint16` counts,
children, entries; every write is bounds-checked against the block end
(`corrupted` past the end), and the tail of the block is padding. -/
def to_buffer (cfg : Config) (entries : List DirEntry) (children : List Nat) :
    Except DirErr (List Byte) := do
  let body ← encodeEntries cfg entries
  let payload := toLE4 1 ++ toLE2 (u16c children.length) ++ toLE2 (u16c entries.length)
      ++ (children.map toLE4).flatten ++ body
  if payload.length ≤ cfg.blockSize then
    Except.ok (payload ++ List.replicate (cfg.blockSize - payload.length) 0)
  else Except.error DirErr.corrupted

/-- `BtreeDirectory::read_node` (btree_dir.cpp:341); the node is constructed
with the given parent hint and the page number, clean. -/
def read_node (cfg : Config) (num parentHint : Nat) : DirM BtreeNode := do
  if num = INVALID_PAGE then throw DirErr.corrupted
  else do
    let buf ← streamReadBlock num
    let _ ← dirCheck (buf.length = cfg.blockSize)
    match from_buffer cfg buf with
    | Except.ok (es, cs) => pure ⟨num, parentHint, es, cs, false⟩
    | Except.error e => throw e

/-- `BtreeDirectory::write_node` (btree_dir.cpp:350). -/
def write_node (cfg : Config) (num : Nat) (n : BtreeNode) : DirM Unit := do
  if num = INVALID_PAGE then throw DirErr.corrupted
  else
    match to_buffer cfg n.entries n.child_indices with
    | Except.ok buf => streamWriteBlock cfg num buf
    | Except.error e => throw e

def flushList (cfg : Config) : List (Nat × BtreeNode) → DirM Unit
  | [] => pure ()
  | (k, _) :: rest => do
    let n ← getNode k
    if n.dirty then do
      write_node cfg n.page_number n
      modifyNode k (fun m => { m with dirty := false })
    else pure ()
    flushList cfg rest

/-- `BtreeDirectory::flush_cache` (btree_dir.cpp:228): write back every dirty
node and clear its flag. -/
def flush_cache (cfg : Config) : DirM Unit := do
  flushList cfg (← get).cache

/-- `BtreeDirectory::clear_cache` (btree_dir.cpp:266). -/
def clear_cache : DirM Unit := modify fun st => { st with cache := [] }

/-- `BtreeDirectory::retrieve_existing_node` (btree_dir.cpp:268). -/
def retrieve_existing_node (num : Nat) : DirM (Option BtreeNode) := do
  pure (cacheFind (← get).cache num)

/-- `BtreeDirectory::retrieve_node` (btree_dir.cpp:276): cache hit checks the
parent hint; miss reads and decodes the page and installs it. -/
def retrieve_node (cfg : Config) (parent_num num : Nat) : DirM BtreeNode := do
  match cacheFind (← get).cache num with
  | some n => do
    dirCheck (parent_num = INVALID_PAGE || parent_num = n.parent_page_number)
    pure n
  | none => do
    let n ← read_node cfg num parent_num
    modify fun st => { st with cache := cacheInsert st.cache num n }
    pure n

/-- `BtreeDirectory::get_root_node` (btree_dir.cpp:311). -/
def get_root_node (cfg : Config) : DirM (Option BtreeNode) := do
  let pg ← getRootPage
  if pg = INVALID_PAGE then pure none
  else do pure (some (← retrieve_node cfg INVALID_PAGE pg))

/-- `std::lower_bound` by its contract: index of the first element that is
not less than the value (call sites guarantee the partitioned precondition). -/
def lowerBoundIdx {α β : Type} (lt : α → β → Bool) : List α → β → Nat
  | [], _ => 0
  | x :: xs, v => if lt x v then lowerBoundIdx lt xs v + 1 else 0

/-- `DirEntry < std::string` of `btree_dir.h`, modelled from the spec: the
injected comparator applied to the filenames. -/
def entLtName (cfg : Config) (e : DirEntry) (name : List Byte) : Bool :=
  cfg.lessThan e.filename name

/-- `DirEntry < DirEntry`, modelled from the spec: injected comparator on
filenames. -/
def entLtEnt (cfg : Config) (a b : DirEntry) : Bool :=
  cfg.lessThan a.filename b.filename

/-- `std::is_sorted` under the injected comparator: no element is less than
its predecessor. -/
def isSortedEnt (cfg : Config) : List DirEntry → Bool
  | [] => true
  | [_] => true
  | a :: b :: r => !entLtEnt cfg b a && isSortedEnt cfg (b :: r)

/-- `iter != end && name == iter->filename` of `find_node` (btree_dir.cpp:302):
binary `std::string` equality, not the injected comparator. -/
def entryEqAt (n : BtreeNode) (i : Nat) (name : List Byte) : Bool :=
  match n.entries.get? i with
  | some e => name = e.filename
  | none => false

/-- Loop body of `BtreeDirectory::find_node` (btree_dir.cpp:294): fuel is the
remaining iterations of the `for (i < BTREE_MAX_DEPTH)` loop; running out
throws `corrupted` (a loop in the "tree"). -/
def findLoop (cfg : Config) : Nat → BtreeNode → List Byte → DirM (Option Nat × Nat × Bool)
  | 0, _, _ => throw DirErr.corrupted
  | fuel + 1, n, name => do
    let i := lowerBoundIdx (entLtName cfg) n.entries name
    if entryEqAt n i name then pure (some n.page_number, i, true)
    else if n.child_indices.isEmpty then pure (some n.page_number, i, false)
    else do
      let c ← atIdx n.child_indices i
      let n' ← retrieve_node cfg n.page_number c
      findLoop cfg fuel n' name

/-- `BtreeDirectory::find_node` (btree_dir.cpp:294): returns the page of the
node reached (none on an empty tree), the entry index, and whether the name
was found (binary equality). -/
def find_node (cfg : Config) (name : List Byte) : DirM (Option Nat × Nat × Bool) := do
  match ← get_root_node cfg with
  | none => pure (none, 0, false)
  | some n => findLoop cfg BTREE_MAX_DEPTH n name

/-- `BtreeDirectory::get_entry` (btree_dir.cpp:319): returns `(id, type)`
when found. -/
def get_entry (cfg : Config) (name : List Byte) : DirM (Option (List Byte × Nat)) := do
  if name.length > cfg.maxFilenameLength then throw DirErr.nameTooLong
  else do
    let r ← find_node cfg name
    match r.1 with
    | none => pure none
    | some pg =>
      if !r.2.2 then pure none
      else do
        let node ← getNode pg
        let e ← atIdx node.entries r.2.1
        if name = e.filename then pure (some (e.id, e.type))
        else pure none

def adjustList (parentVal : Nat) : List Nat → DirM Unit
  | [] => pure ()
  | c :: rest => do
    match cacheFind (← get).cache c with
    | some _ => modifyNode c (fun m => { m with parent_page_number := parentVal, dirty := true })
    | none => pure ()
    adjustList parentVal rest

/-- `BtreeDirectory::adjust_children_in_cache` (btree_dir.cpp:384): set the
parent of every resident child of the node at `pg` to `parentVal` (the
one-argument call sites of the source default `parentVal` to the node's own
page number, modelled from the spec's parent-pointer discipline). -/
def adjust_children_in_cache (pg parentVal : Nat) : DirM Unit := do
  let n ← getNode pg
  adjustList parentVal n.child_indices

/-- `BtreeDirectory::insert_and_balance` (btree_dir.cpp:395).  `fuel` is
`BTREE_MAX_DEPTH - depth`; exhausting it is the `dir_check(depth <
BTREE_MAX_DEPTH)`. -/
def insert_and_balance (cfg : Config) : Nat → Nat → DirEntry → Nat → DirM Unit
  | 0, _, _, _ => throw DirErr.corrupted
  | fuel + 1, pg, e, additional_child => do
    let n ← getNode pg
    let i := lowerBoundIdx (entLtEnt cfg) n.entries e
    if additional_child ≠ INVALID_PAGE ∧ ¬n.child_indices.isEmpty then
      modifyNode pg (fun m =>
        { m with child_indices := insIdx m.child_indices (i + 1) additional_child, dirty := true })
    else pure ()
    modifyNode pg (fun m => { m with entries := insIdx m.entries i e, dirty := true })
    let n1 ← getNode pg
    if n1.entries.length > cfg.maxNumEntries then do
      let sibPg ← allocate_page cfg
      let _sib ← retrieve_node cfg n1.parent_page_number sibPg
      let middle_index := n1.entries.length / 2 - 1
      let promoted ← atIdx n1.entries middle_index
      if ¬n1.child_indices.isEmpty then do
        modifyNode sibPg (fun m =>
          { m with child_indices := n1.child_indices.drop (middle_index + 1), dirty := true })
        modifyNode pg (fun m =>
          { m with child_indices := m.child_indices.take (middle_index + 1), dirty := true })
        adjust_children_in_cache sibPg sibPg
      else pure ()
      modifyNode sibPg (fun m =>
        { m with entries := n1.entries.drop (middle_index + 1), dirty := true })
      modifyNode pg (fun m =>
        { m with entries := m.entries.take (middle_index + 1), dirty := true })
      modifyNode pg (fun m => { m with entries := m.entries.dropLast, dirty := true })
      if n1.parent_page_number = INVALID_PAGE then do
        let new_root_page ← allocate_page cfg
        let _root ← retrieve_node cfg INVALID_PAGE new_root_page
        modifyNode new_root_page (fun m =>
          { m with child_indices := m.child_indices ++ [pg, sibPg], dirty := true })
        modifyNode new_root_page (fun m =>
          { m with entries := m.entries ++ [promoted], dirty := true })
        setRootPage new_root_page
        modifyNode pg (fun m => { m with parent_page_number := new_root_page, dirty := true })
        modifyNode sibPg (fun m => { m with parent_page_number := new_root_page, dirty := true })
      else do
        match ← retrieve_existing_node n1.parent_page_number with
        | some par => insert_and_balance cfg fuel par.page_number promoted sibPg
        | none => throw DirErr.corrupted
    else pure ()

/-- `BtreeDirectory::add_entry` (btree_dir.cpp:359). -/
def add_entry (cfg : Config) (name id : List Byte) (ty : Nat) : DirM Bool := do
  if name.length > cfg.maxFilenameLength then throw DirErr.nameTooLong
  else do
    let r ← find_node cfg name
    if r.2.2 then pure false
    else
      match r.1 with
      | none => do
        let pg ← allocate_page cfg
        setRootPage pg
        match ← get_root_node cfg with
        | some n => do
          modifyNode n.page_number (fun m =>
            { m with entries := m.entries ++ [⟨name, id, u32 ty⟩], dirty := true })
          pure true
        | none => throw DirErr.corrupted
      | some pg => do
        insert_and_balance cfg BTREE_MAX_DEPTH pg ⟨name, id, u32 ty⟩ INVALID_PAGE
        pure true

/-- The `while (!lchild->is_leaf())` descent of `replace_with_sub_entry`
(btree_dir.cpp:447); the source loop is unbounded, so on data where it would
not terminate the model throws `corrupted` after `fuel` steps (never reached
in the proved executions). -/
def descendRightmost (cfg : Config) : Nat → BtreeNode → DirM BtreeNode
  | 0, _ => throw DirErr.corrupted
  | fuel + 1, lchild => do
    if lchild.child_indices.isEmpty then pure lchild
    else do
      let c ← backM lchild.child_indices
      let n' ← retrieve_node cfg lchild.page_number c
      descendRightmost cfg fuel n'

/-- `BtreeDirectory::replace_with_sub_entry` (btree_dir.cpp:436): erase in a
leaf, otherwise replace by the in-order predecessor pulled from the rightmost
leaf of the left child; returns the page of the affected leaf. -/
def replace_with_sub_entry (cfg : Config) (pg index depth : Nat) : DirM Nat := do
  dirCheck (decide (depth < BTREE_MAX_DEPTH))
  let n ← getNode pg
  if n.child_indices.isEmpty then do
    modifyNode pg (fun m => { m with entries := delIdx m.entries index, dirty := true })
    pure pg
  else do
    let c ← atIdx n.child_indices index
    let l0 ← retrieve_node cfg pg c
    let leaf ← descendRightmost cfg BTREE_MAX_DEPTH l0
    let le ← backM leaf.entries
    let _ ← atIdx n.entries index
    modifyNode pg (fun m => { m with entries := setIdx m.entries index le, dirty := true })
    modifyNode leaf.page_number (fun m => { m with entries := m.entries.dropLast, dirty := true })
    pure leaf.page_number

/-- `BtreeDirectory::del_node` (btree_dir.cpp:455). -/
def del_node (cfg : Config) (pg : Nat) : DirM Unit := do
  deallocate_page cfg pg
  modify fun st => { st with cache := cacheErase st.cache pg }

/-- `BtreeDirectory::find_sibling` (btree_dir.cpp:463): entry index of the
separator and the sibling's page (the right sibling, or the left one when the
node is the last child; `.at(index - 1)` with `index = 0` is the source's
`.at((size_t)-1)`, an out-of-range throw). -/
def find_sibling (cfg : Config) (parentN nodeN : BtreeNode) : DirM (Nat × Nat) := do
  dirCheck (parentN.page_number = nodeN.parent_page_number)
  let child_indices := parentN.child_indices
  match listIndexOf child_indices nodeN.page_number with
  | none => throw DirErr.corrupted
  | some index =>
    if index + 1 = child_indices.length then do
      if index = 0 then throw DirErr.outOfRange
      else do
        let c ← atIdx child_indices (index - 1)
        let sib ← retrieve_node cfg parentN.page_number c
        pure (index - 1, sib.page_number)
    else do
      let c ← atIdx child_indices (index + 1)
      let sib ← retrieve_node cfg parentN.page_number c
      pure (index, sib.page_number)

/-- `BtreeDirectory::rotate` (btree_dir.cpp:480): redistribute the two nodes'
entries (and children, when both are internal) around the separator; returns
the new separator, which the caller writes back into the parent slot the
source mutated through the reference. -/
def rotate (cfg : Config) (leftPg rightPg : Nat) (separator : DirEntry) : DirM DirEntry := do
  let leftN ← getNode leftPg
  let rightN ← getNode rightPg
  let temp := leftN.entries ++ [separator] ++ rightN.entries
  let middle := temp.length / 2
  let newSep ← atIdx temp middle
  modifyNode leftPg (fun m => { m with entries := temp.take middle, dirty := true })
  modifyNode rightPg (fun m => { m with entries := temp.drop (middle + 1), dirty := true })
  if ¬leftN.child_indices.isEmpty ∧ ¬rightN.child_indices.isEmpty then do
    let tempC := leftN.child_indices ++ rightN.child_indices
    modifyNode leftPg (fun m => { m with child_indices := tempC.take (middle + 1), dirty := true })
    modifyNode rightPg (fun m => { m with child_indices := tempC.drop (middle + 1), dirty := true })
    adjust_children_in_cache leftPg leftPg
    adjust_children_in_cache rightPg rightPg
  else pure ()
  pure newSep

/-- `BtreeDirectory::merge` (btree_dir.cpp:512): pull the separator down into
`left`, append `right`'s entries and children, re-parent `right`'s resident
children, drop `right` from the parent and deallocate it.  (Erasing a
`std::find` miss would be UB; modelled as `corrupted`.) -/
def merge (cfg : Config) (leftPg rightPg parentPg : Nat) (entry_index : Nat) : DirM Unit := do
  let parentN ← getNode parentPg
  let sep ← atIdx parentN.entries entry_index
  modifyNode leftPg (fun m => { m with entries := m.entries ++ [sep], dirty := true })
  modifyNode parentPg (fun m => { m with entries := delIdx m.entries entry_index, dirty := true })
  let parentN2 ← getNode parentPg
  match listIndexOf parentN2.child_indices rightPg with
  | some j =>
    modifyNode parentPg (fun m => { m with child_indices := delIdx m.child_indices j, dirty := true })
  | none => throw DirErr.corrupted
  let rightN ← getNode rightPg
  modifyNode leftPg (fun m => { m with entries := m.entries ++ rightN.entries, dirty := true })
  adjust_children_in_cache rightPg leftPg
  modifyNode leftPg (fun m => { m with child_indices := m.child_indices ++ rightN.child_indices, dirty := true })
  del_node cfg rightPg

/-- `BtreeDirectory::balance_up` (btree_dir.cpp:528).  `fuel` is
`BTREE_MAX_DEPTH - depth`. -/
def balance_up (cfg : Config) : Nat → Nat → DirM Unit
  | 0, _ => throw DirErr.corrupted
  | fuel + 1, pg => do
    let n ← getNode pg
    if n.parent_page_number = INVALID_PAGE ∧ n.entries.isEmpty ∧ ¬n.child_indices.isEmpty then do
      dirCheck (n.child_indices.length = 1)
      adjust_children_in_cache pg INVALID_PAGE
      let f ← frontM n.child_indices
      setRootPage f
      del_node cfg pg
    else if n.parent_page_number = INVALID_PAGE ∨ n.entries.length ≥ cfg.maxNumEntries / 2 then
      pure ()
    else do
      match ← retrieve_existing_node n.parent_page_number with
      | none => throw DirErr.corrupted
      | some parentN => do
        let r ← find_sibling cfg parentN n
        let sib ← getNode r.2
        if n.entries.length + sib.entries.length < cfg.maxNumEntries then do
          let nb ← backM n.entries
          let sf ← frontM sib.entries
          if cfg.lessThan nb.filename sf.filename then merge cfg pg r.2 parentN.page_number r.1
          else merge cfg r.2 pg parentN.page_number r.1
        else do
          let nb ← backM n.entries
          let sf ← frontM sib.entries
          let sepCur ← atIdx parentN.entries r.1
          if cfg.lessThan nb.filename sf.filename then do
            let newSep ← rotate cfg pg r.2 sepCur
            modifyNode parentN.page_number (fun m =>
              { m with entries := setIdx m.entries r.1 newSep, dirty := true })
          else do
            let newSep ← rotate cfg r.2 pg sepCur
            modifyNode parentN.page_number (fun m =>
              { m with entries := setIdx m.entries r.1 newSep, dirty := true })
        balance_up cfg fuel parentN.page_number

/-- `BtreeDirectory::remove_entry` (btree_dir.cpp:568): returns `(id, type)`
of the removed entry. -/
def remove_entry (cfg : Config) (name : List Byte) : DirM (Option (List Byte × Nat)) := do
  if name.length > cfg.maxFilenameLength then throw DirErr.nameTooLong
  else do
    let r ← find_node cfg name
    match r.1 with
    | none => pure none
    | some pg =>
      if !r.2.2 then pure none
      else do
        let node ← getNode pg
        let e ← atIdx node.entries r.2.1
        let leafPg ← replace_with_sub_entry cfg pg r.2.1 0
        balance_up cfg BTREE_MAX_DEPTH leafPg
        pure (some (e.id, e.type))

/-- The separator loop of `validate_node` (btree_dir.cpp:252): `v` is the
validation of the next depth.  Both recursive validations are run and their
results DISCARDED, exactly as in the source. -/
def validate_seps (cfg : Config) (v : BtreeNode → DirM Bool) (n : BtreeNode) :
    List Nat → DirM Bool
  | [] => pure true
  | i :: rest => do
    let e ← atIdx n.entries i
    let lcp ← atIdx n.child_indices i
    let rcp ← atIdx n.child_indices (i + 1)
    let lchild ← retrieve_node cfg n.page_number lcp
    let rchild ← retrieve_node cfg n.page_number rcp
    let _ ← v lchild
    let _ ← v rchild
    let lb ← backM lchild.entries
    let rf ← frontM rchild.entries
    if cfg.lessThan e.filename lb.filename ∨ cfg.lessThan rf.filename e.filename then pure false
    else validate_seps cfg v n rest

/-- `BtreeDirectory::validate_node` (btree_dir.cpp:241).  `fuel` is
`BTREE_MAX_DEPTH + 1 - depth`: the source returns false once `depth >
BTREE_MAX_DEPTH`. -/
def validate_node (cfg : Config) : Nat → BtreeNode → DirM Bool
  | 0 => fun _ => pure false
  | fuel + 1 => fun n => do
    if ¬ isSortedEnt cfg n.entries then pure false
    else if n.parent_page_number ≠ INVALID_PAGE ∧
        (n.entries.length < cfg.maxNumEntries / 2 ∨ n.entries.length > cfg.maxNumEntries) then
      pure false
    else if n.child_indices.isEmpty then pure true
    else validate_seps cfg (validate_node cfg fuel) n (List.range n.entries.length)

/-- `BtreeDirectory::validate_btree_structure` (btree_dir.cpp:605). -/
def validate_btree_structure (cfg : Config) : DirM Bool := do
  match ← get_root_node cfg with
  | some root => validate_node cfg (BTREE_MAX_DEPTH + 1) root
  | none => pure true

def freeListLoop (cfg : Config) : Nat → Nat → Nat → DirM Bool
  | 0, pg, _ => pure (pg = INVALID_PAGE)
  | k + 1, pg, prevPage => do
    let fp ← read_free_page cfg pg
    if fp.2 ≠ prevPage then pure false
    else freeListLoop cfg k fp.1 pg

/-- `BtreeDirectory::validate_free_list` (btree_dir.cpp:589). -/
def validate_free_list (cfg : Config) : DirM Bool := do
  freeListLoop cfg (← getNumFreePage) (← getStartFreePage) INVALID_PAGE

/-- Binary byte-wise comparison: `std::string::compare` yielding `< 0` (the
spec's "binary" injected comparator). -/
def lexLt : List Byte → List Byte → Bool
  | [], [] => false
  | [], _ :: _ => true
  | _ :: _, [] => false
  | a :: as, b :: bs => if a < b then true else if b < a then false else lexLt as bs

def lowerByte (b : Byte) : Byte := if 65 ≤ b ∧ b ≤ 90 then b + 32 else b

/-- The spec's case-insensitive injected comparator: compare ASCII-lowercased
names byte-wise. -/
def ciLt (a b : List Byte) : Bool := lexLt (a.map lowerByte) (b.map lowerByte)

/-- A fresh directory: empty stream, all header scalars at their defaults
(root and free-list head INVALID_PAGE, zero free pages), empty cache. -/
def initialState : DirState := ⟨[], INVALID_PAGE, INVALID_PAGE, 0, []⟩

/-- Insert a list of names in order, using each name as its own id and type 0. -/
def addSeq (cfg : Config) : List (List Byte) → DirM Unit
  | [] => pure ()
  | nm :: rest => do
    let _ ← add_entry cfg nm nm 0
    addSeq cfg rest

/-- Result of a computation, discarding the final state. -/
def runResult {α : Type} (m : DirM α) (st : DirState) : Except DirErr α :=
  (m.run st).map Prod.fst

theorem run_pure {α : Type} (a : α) (s : DirState) :
    (pure a : DirM α).run s = Except.ok (a, s) := rfl

theorem run_bind {α β : Type} (m : DirM α) (f : α → DirM β) (s : DirState) :
    (m >>= f).run s =
      match m.run s with
      | Except.ok p => (f p.1).run p.2
      | Except.error e => Except.error e := by
  show Except.bind (m.run s) _ = _
  cases m.run s <;> rfl

theorem run_throw {α : Type} (e : DirErr) (s : DirState) :
    (throw e : DirM α).run s = Except.error e := rfl

theorem run_get (s : DirState) : (get : DirM DirState).run s = Except.ok (s, s) := rfl

theorem run_set (s' s : DirState) : (set s' : DirM Unit).run s = Except.ok ((), s') := rfl

theorem run_modify (f : DirState → DirState) (s : DirState) :
    (modify f : DirM Unit).run s = Except.ok ((), f s) := rfl

theorem run_map {α β : Type} (g : α → β) (m : DirM α) (s : DirState) :
    (g <$> m).run s =
      match m.run s with
      | Except.ok p => Except.ok (g p.1, p.2)
      | Except.error e => Except.error e := by
  show (m.run s).bind _ = _
  cases m.run s <;> rfl

/-! Concrete execution scenarios used by the claims.

`cfgA`: the spec's test override `MAX_NUM_ENTRIES = 4` with 16-byte blocks.
`cfgB`: one-leaf configuration used for the corruption scenario.
`cfgCI`: the case-insensitive injected comparator. -/

def cfgA : Config := ⟨16, 3, 2, 4, lexLt⟩

def cfgB : Config := ⟨64, 3, 1, 13, lexLt⟩

def cfgCI : Config := ⟨64, 10, 2, 4, ciLt⟩

def namesA5 : List (List Byte) := [[48, 49], [48, 50], [48, 51], [48, 52], [48, 53]]

def namesA6 : List (List Byte) := namesA5 ++ [[48, 54]]

def namesAE : List (List Byte) := [[97], [98], [99], [100], [101]]

def stA1 : DirState :=
{ stream := [zeroBlock cfgA], rootPage := 0, startFreePage := 4294967295, numFreePage := 0, cache := [(0, { page_number := 0, parent_page_number := 4294967295, entries := [{ filename := [48, 49], id := [48, 49], type := 0 }], child_indices := [], dirty := true })] }

def stA2 : DirState :=
{ stream := [zeroBlock cfgA], rootPage := 0, startFreePage := 4294967295, numFreePage := 0, cache := [(0, { page_number := 0, parent_page_number := 4294967295, entries := [{ filename := [48, 49], id := [48, 49], type := 0 }, { filename := [48, 50], id := [48, 50], type := 0 }], child_indices := [], dirty := true })] }

def stA3 : DirState :=
{ stream := [zeroBlock cfgA], rootPage := 0, startFreePage := 4294967295, numFreePage := 0, cache := [(0, { page_number := 0, parent_page_number := 4294967295, entries := [{ filename := [48, 49], id := [48, 49], type := 0 }, { filename := [48, 50], id := [48, 50], type := 0 }, { filename := [48, 51], id := [48, 51], type := 0 }], child_indices := [], dirty := true })] }

def stA4 : DirState :=
{ stream := [zeroBlock cfgA], rootPage := 0, startFreePage := 4294967295, numFreePage := 0, cache := [(0, { page_number := 0, parent_page_number := 4294967295, entries := [{ filename := [48, 49], id := [48, 49], type := 0 }, { filename := [48, 50], id := [48, 50], type := 0 }, { filename := [48, 51], id := [48, 51], type := 0 }, { filename := [48, 52], id := [48, 52], type := 0 }], child_indices := [], dirty := true })] }

def stA5 : DirState :=
{ stream := [zeroBlock cfgA, zeroBlock cfgA, zeroBlock cfgA], rootPage := 2, startFreePage := 4294967295, numFreePage := 0, cache := [(0, { page_number := 0, parent_page_number := 2, entries := [{ filename := [48, 49], id := [48, 49], type := 0 }], child_indices := [], dirty := true }), (1, { page_number := 1, parent_page_number := 2, entries := [{ filename := [48, 51], id := [48, 51], type := 0 }, { filename := [48, 52], id := [48, 52], type := 0 }, { filename := [48, 53], id := [48, 53], type := 0 }], child_indices := [], dirty := true }), (2, { page_number := 2, parent_page_number := 4294967295, entries := [{ filename := [48, 50], id := [48, 50], type := 0 }], child_indices := [0, 1], dirty := true })] }

def stA6 : DirState :=
{ stream := [zeroBlock cfgA, zeroBlock cfgA, zeroBlock cfgA], rootPage := 2, startFreePage := 4294967295, numFreePage := 0, cache := [(0, { page_number := 0, parent_page_number := 2, entries := [{ filename := [48, 49], id := [48, 49], type := 0 }], child_indices := [], dirty := true }), (1, { page_number := 1, parent_page_number := 2, entries := [{ filename := [48, 51], id := [48, 51], type := 0 }, { filename := [48, 52], id := [48, 52], type := 0 }, { filename := [48, 53], id := [48, 53], type := 0 }, { filename := [48, 54], id := [48, 54], type := 0 }], child_indices := [], dirty := true }), (2, { page_number := 2, parent_page_number := 4294967295, entries := [{ filename := [48, 50], id := [48, 50], type := 0 }], child_indices := [0, 1], dirty := true })] }

def stA7 : DirState :=
{ stream := [zeroBlock cfgA, zeroBlock cfgA, zeroBlock cfgA, zeroBlock cfgA], rootPage := 2, startFreePage := 4294967295, numFreePage := 0, cache := [(0, { page_number := 0, parent_page_number := 2, entries := [{ filename := [48, 49], id := [48, 49], type := 0 }], child_indices := [], dirty := true }), (1, { page_number := 1, parent_page_number := 2, entries := [{ filename := [48, 51], id := [48, 51], type := 0 }], child_indices := [], dirty := true }), (2, { page_number := 2, parent_page_number := 4294967295, entries := [{ filename := [48, 50], id := [48, 50], type := 0 }, { filename := [48, 52], id := [48, 52], type := 0 }], child_indices := [0, 1, 3], dirty := true }), (3, { page_number := 3, parent_page_number := 2, entries := [{ filename := [48, 53], id := [48, 53], type := 0 }, { filename := [48, 54], id := [48, 54], type := 0 }, { filename := [48, 55], id := [48, 55], type := 0 }], child_indices := [], dirty := true })] }

def stA8 : DirState :=
{ stream := [zeroBlock cfgA, zeroBlock cfgA, zeroBlock cfgA, zeroBlock cfgA], rootPage := 2, startFreePage := 4294967295, numFreePage := 0, cache := [(0, { page_number := 0, parent_page_number := 2, entries := [{ filename := [48, 49], id := [48, 49], type := 0 }], child_indices := [], dirty := true }), (1, { page_number := 1, parent_page_number := 2, entries := [{ filename := [48, 51], id := [48, 51], type := 0 }], child_indices := [], dirty := true }), (2, { page_number := 2, parent_page_number := 4294967295, entries := [{ filename := [48, 50], id := [48, 50], type := 0 }, { filename := [48, 52], id := [48, 52], type := 0 }], child_indices := [0, 1, 3], dirty := true }), (3, { page_number := 3, parent_page_number := 2, entries := [{ filename := [48, 53], id := [48, 53], type := 0 }, { filename := [48, 54], id := [48, 54], type := 0 }], child_indices := [], dirty := true })] }

def stB1 : DirState :=
{ stream := [zeroBlock cfgB], rootPage := 0, startFreePage := 4294967295, numFreePage := 0, cache := [(0, { page_number := 0, parent_page_number := 4294967295, entries := [{ filename := [97], id := [97], type := 0 }], child_indices := [], dirty := true })] }

def stB2 : DirState :=
{ stream := [zeroBlock cfgB], rootPage := 0, startFreePage := 4294967295, numFreePage := 0, cache := [(0, { page_number := 0, parent_page_number := 4294967295, entries := [{ filename := [97], id := [97], type := 0 }, { filename := [98], id := [98], type := 0 }], child_indices := [], dirty := true })] }

def stB3 : DirState :=
{ stream := [zeroBlock cfgB], rootPage := 0, startFreePage := 4294967295, numFreePage := 0, cache := [(0, { page_number := 0, parent_page_number := 4294967295, entries := [{ filename := [97], id := [97], type := 0 }, { filename := [98], id := [98], type := 0 }, { filename := [99], id := [99], type := 0 }], child_indices := [], dirty := true })] }

def stB4 : DirState :=
{ stream := [zeroBlock cfgB], rootPage := 0, startFreePage := 4294967295, numFreePage := 0, cache := [(0, { page_number := 0, parent_page_number := 4294967295, entries := [{ filename := [97], id := [97], type := 0 }, { filename := [98], id := [98], type := 0 }, { filename := [99], id := [99], type := 0 }, { filename := [100], id := [100], type := 0 }], child_indices := [], dirty := true })] }

def stB5 : DirState :=
{ stream := [zeroBlock cfgB], rootPage := 0, startFreePage := 4294967295, numFreePage := 0, cache := [(0, { page_number := 0, parent_page_number := 4294967295, entries := [{ filename := [97], id := [97], type := 0 }, { filename := [98], id := [98], type := 0 }, { filename := [99], id := [99], type := 0 }, { filename := [100], id := [100], type := 0 }, { filename := [101], id := [101], type := 0 }], child_indices := [], dirty := true })] }



def stB6 : DirState :=
{ stream := [[1, 0, 0, 0, 0, 0, 5, 0, 97, 0, 0, 0, 97, 0, 0, 0, 0, 98, 0, 0, 0, 98, 0, 0, 0, 0, 99, 0, 0, 0, 99, 0, 0, 0, 0, 100, 0, 0, 0, 100, 0, 0, 0, 0, 101, 0, 0, 0, 101, 0, 0, 0, 0, 0, 0, 0, 0, 0, 0, 0, 0, 0, 0, 0]], rootPage := 0, startFreePage := 4294967295, numFreePage := 0, cache := [(0, { page_number := 0, parent_page_number := 4294967295, entries := [{ filename := [97], id := [97], type := 0 }, { filename := [98], id := [98], type := 0 }, { filename := [99], id := [99], type := 0 }, { filename := [100], id := [100], type := 0 }, { filename := [101], id := [101], type := 0 }], child_indices := [], dirty := false })] }

/-- Overwrite byte 0 of block 0 of the stream with the value 2 (external
corruption, as in the spec's scenario 5). -/
def tamperFirstBlock (st : DirState) : DirState :=
  { st with stream := match st.stream with | [] => [] | b :: rest => b.set 0 2 :: rest }

/-- Reopening the directory on the tampered stream: the cache starts empty. -/
def reopenTampered : DirM Unit := do
  modify tamperFirstBlock
  clear_cache

def stB6r : DirState := { tamperFirstBlock stB6 with cache := [] }

def stB7 : DirState :=
{ stream := [[2, 0, 0, 0, 0, 0, 5, 0, 97, 0, 0, 0, 97, 0, 0, 0, 0, 98, 0, 0, 0, 98, 0, 0, 0, 0, 99, 0, 0, 0, 99, 0, 0, 0, 0, 100, 0, 0, 0, 100, 0, 0, 0, 0, 101, 0, 0, 0, 101, 0, 0, 0, 0, 0, 0, 0, 0, 0, 0, 0, 0, 0, 0, 0]], rootPage := 0, startFreePage := 4294967295, numFreePage := 0, cache := [(0, { page_number := 0, parent_page_number := 4294967295, entries := [{ filename := [97], id := [97], type := 0 }, { filename := [98], id := [98], type := 0 }, { filename := [99], id := [99], type := 0 }, { filename := [100], id := [100], type := 0 }, { filename := [101], id := [101], type := 0 }], child_indices := [], dirty := false })] }

theorem stepA1 : (add_entry cfgA [48, 49] [48, 49] 0).run initialState = Except.ok (true, stA1) := by decide

theorem stepA2 : (add_entry cfgA [48, 50] [48, 50] 0).run stA1 = Except.ok (true, stA2) := by decide

theorem stepA3 : (add_entry cfgA [48, 51] [48, 51] 0).run stA2 = Except.ok (true, stA3) := by decide

theorem stepA4 : (add_entry cfgA [48, 52] [48, 52] 0).run stA3 = Except.ok (true, stA4) := by decide

theorem stepA5 : (add_entry cfgA [48, 53] [48, 53] 0).run stA4 = Except.ok (true, stA5) := by decide

theorem stepA6 : (add_entry cfgA [48, 54] [48, 54] 0).run stA5 = Except.ok (true, stA6) := by decide

theorem stepA7 : (add_entry cfgA [48, 55] [48, 55] 0).run stA6 = Except.ok (true, stA7) := by decide

theorem stepA8 : (remove_entry cfgA [48, 55]).run stA7 = Except.ok (some ([48, 55], 0), stA8) := by decide

theorem addSeqA5 : (addSeq cfgA namesA5).run initialState = Except.ok ((), stA5) := by
  simp only [namesA5, addSeq, run_bind, stepA1, stepA2, stepA3, stepA4, stepA5, run_pure]

theorem addSeqA6 : (addSeq cfgA namesA6).run initialState = Except.ok ((), stA6) := by
  simp only [namesA6, namesA5, List.cons_append, List.nil_append, addSeq, run_bind,
    stepA1, stepA2, stepA3, stepA4, stepA5, stepA6, run_pure]

theorem stepB1 : (add_entry cfgB [97] [97] 0).run initialState = Except.ok (true, stB1) := by decide

theorem stepB2 : (add_entry cfgB [98] [98] 0).run stB1 = Except.ok (true, stB2) := by decide

theorem stepB3 : (add_entry cfgB [99] [99] 0).run stB2 = Except.ok (true, stB3) := by decide

theorem stepB4 : (add_entry cfgB [100] [100] 0).run stB3 = Except.ok (true, stB4) := by decide

theorem stepB5 : (add_entry cfgB [101] [101] 0).run stB4 = Except.ok (true, stB5) := by decide

theorem stepBflush : (flush_cache cfgB).run stB5 = Except.ok ((), stB6) := by decide

theorem stepBreopen : reopenTampered.run stB6 = Except.ok ((), stB6r) := by decide

theorem stepBget : (get_entry cfgB [97]).run stB6r = Except.ok (some ([97], 0), stB7) := by decide

def c2Scenario : DirM (Option (List Byte × Nat)) := do
  addSeq cfgB namesAE
  flush_cache cfgB
  reopenTampered
  get_entry cfgB [97]

theorem c2Scenario_eq : c2Scenario.run initialState = Except.ok (some ([97], 0), stB7) := by
  simp only [c2Scenario, namesAE, addSeq, run_bind, stepB1, stepB2, stepB3, stepB4, stepB5,
    run_pure, stepBflush, stepBreopen, stepBget]

/-- Nodes of a hand-built tree whose left child is NOT sorted (while the root
itself satisfies every root-level check). -/
def c3Root : BtreeNode := ⟨0, INVALID_PAGE, [⟨[109], [0, 0], 0⟩], [1, 2], false⟩

def c3Left : BtreeNode := ⟨1, 0, [⟨[98], [0, 0], 0⟩, ⟨[97], [0, 0], 0⟩], [], false⟩

def c3Right : BtreeNode := ⟨2, 0, [⟨[122], [0, 0], 0⟩, ⟨[121], [0, 0], 0⟩], [], false⟩

def stC3 : DirState := ⟨[], 0, INVALID_PAGE, 0, [(0, c3Root), (1, c3Left), (2, c3Right)]⟩

def stTwoBlocks : DirState := ⟨[zeroBlock cfgA, zeroBlock cfgA], INVALID_PAGE, INVALID_PAGE, 0, []⟩

/-- C1: `deallocate(p)` on the last page `p` (`p * BLOCK_SIZE = size - BLOCK_SIZE`)
does NOT shrink the stream and DOES modify the free list: the source's
special-case test compares against `size` instead of `size - BLOCK_SIZE`, so
it never fires for a valid page.  Here the stream has 2 blocks and page 1 is
deallocated: the stream stays at 2 blocks and page 1 is pushed onto the free
list. -/
theorem C1_dealloc_last_page_goes_to_free_list :
    1 * cfgA.blockSize = stTwoBlocks.stream.length * cfgA.blockSize - cfgA.blockSize ∧
    (deallocate_page cfgA 1).run stTwoBlocks =
      Except.ok ((), ⟨[zeroBlock cfgA,
        [0, 0, 0, 0] ++ toLE4 INVALID_PAGE ++ toLE4 INVALID_PAGE ++ List.replicate 4 0],
        INVALID_PAGE, 1, 1, []⟩) := by
  exact ⟨by decide, by decide⟩

/-- C2 counterexample: after building the five-name tree in block 0, flushing,
overwriting byte 0 of block 0 with 2 and reopening, `get_entry("a")` does NOT
raise Corrupted (the claim says it must). -/
theorem C2_flag2_no_corrupted_counterexample :
    c2Scenario.run initialState ≠ Except.error DirErr.corrupted := by
  rw [c2Scenario_eq]
  exact fun h => Except.noConfusion h

/-- C2 amended: with byte 0 of block 0 overwritten by 2, the block's flag
field decodes to 2, `from_buffer` accepts any nonzero flag as a live node,
and the next `get_entry` SUCCEEDS, returning the original id. -/
theorem C2_flag2_get_entry_succeeds :
    fromLE ((stB6r.stream.headD []).take 4) = 2 ∧
    c2Scenario.run initialState = Except.ok (some ([97], 0), stB7) := by
  exact ⟨by decide, c2Scenario_eq⟩

/-- C3: `validate_btree_structure` returns true on a tree whose left child is
not sorted, because `validate_node` discards the results of its recursive
calls; validating the child directly returns false. -/
theorem C3_validate_discards_child_results :
    runResult (validate_btree_structure cfgA) stC3 = Except.ok true ∧
    isSortedEnt cfgA c3Left.entries = false ∧
    runResult (validate_node cfgA BTREE_MAX_DEPTH c3Left) stC3 = Except.ok false := by
  exact ⟨by decide, by decide, by decide⟩

/-- C4: with `MAX_NUM_ENTRIES = 4`, inserting five names into an empty tree
splits the root and leaves the non-root node at page 0 with a single entry —
below the claimed lower bound `⌈4/2⌉ = 2` and below the code's own
`validate_node` bound `4/2 = 2`, so `validate_node` itself rejects the node
the engine just produced. -/
theorem C4_split_underflows_fill_bound :
    (addSeq cfgA namesA5).run initialState = Except.ok ((), stA5) ∧
    (cacheFind stA5.cache 0).map (fun n => (n.parent_page_number, n.entries.length)) =
      some (2, 1) ∧
    1 < (cfgA.maxNumEntries + 1) / 2 ∧
    runResult (do
      let n ← getNode 0
      validate_node cfgA (BTREE_MAX_DEPTH + 1) n) stA5 = Except.ok false := by
  exact ⟨addSeqA5, by decide, by decide, by decide⟩

/-- C5 counterexample: with the case-insensitive injected comparator,
`add_entry "Foo"` then `add_entry "foo"`: the second call returns TRUE (the
claim says false), and `get_entry "FOO"` returns none (the claim says the
first id): the equality tests of `find_node` and `get_entry` use binary
string equality, not the injected comparator. -/
theorem C5_ci_comparator_counterexample :
    runResult (do
      let a ← add_entry cfgCI [70, 111, 111] [1, 1] 0
      let b ← add_entry cfgCI [102, 111, 111] [2, 2] 0
      let g ← get_entry cfgCI [70, 79, 79]
      pure (a, b, g)) initialState = Except.ok (true, true, none) := by decide

/-- C5 amended: the duplicate insert succeeds and makes even the original
spelling unreachable; only the binary-equal spelling is retrievable. -/
theorem C5_ci_comparator_actual_behaviour :
    runResult (do
      let a ← add_entry cfgCI [70, 111, 111] [1, 1] 0
      let b ← add_entry cfgCI [102, 111, 111] [2, 2] 0
      let g1 ← get_entry cfgCI [70, 79, 79]
      let g2 ← get_entry cfgCI [70, 111, 111]
      let g3 ← get_entry cfgCI [102, 111, 111]
      pure (a, b, g1, g2, g3) :
      DirM (Bool × Bool × Option (List Byte × Nat) × Option (List Byte × Nat) ×
        Option (List Byte × Nat))) initialState =
    Except.ok (true, true, (none : Option (List Byte × Nat)), (none : Option (List Byte × Nat)),
      some ([2, 2], 0)) := by decide

/-- C7 counterexample: `MAX_NUM_ENTRIES = 4`; from the six-name tree (stream
3 blocks, empty free list), `add "07"` splits a LEAF (not the root: the root
page stays 2) and `remove "07"` then rebalances without freeing: the stream
ends at 4 blocks and the free list stays empty, so `stream.size()` does not
return to its pre-insert value even though the root was never split. -/
theorem C7_nonroot_split_does_not_restore_counterexample :
    (addSeq cfgA namesA6).run initialState = Except.ok ((), stA6) ∧
    runResult (get_entry cfgA [48, 55]) stA6 = Except.ok none ∧
    ((do
      let _ ← add_entry cfgA [48, 55] [48, 55] 0
      remove_entry cfgA [48, 55]) : DirM (Option (List Byte × Nat))).run stA6 =
      Except.ok (some ([48, 55], 0), stA8) ∧
    stA8.rootPage = stA6.rootPage ∧
    stA6.stream.length = 3 ∧
    stA8.stream.length = 4 ∧
    stA8.numFreePage = stA6.numFreePage := by
  refine ⟨addSeqA6, by decide, ?_, by decide, by decide, by decide, by decide⟩
  simp only [run_bind, stepA7, stepA8]

/-! Closed-form run equations for the atomic operations, used for symbolic
execution in the general theorems. -/

theorem exceptOkBind {α β : Type} (a : α) (f : α → Except DirErr β) :
    (Except.ok a : Except DirErr α) >>= f = f a := rfl

theorem exceptErrorBind {α β : Type} (e : DirErr) (f : α → Except DirErr β) :
    (Except.error e : Except DirErr α) >>= f = Except.error e := rfl

theorem run_dirCheck (b : Bool) (s : DirState) :
    (dirCheck b).run s = if b then Except.ok ((), s) else Except.error DirErr.corrupted := by
  cases b <;> rfl

theorem run_getRootPage (s : DirState) : getRootPage.run s = Except.ok (s.rootPage, s) := rfl

theorem run_setRootPage (p : Nat) (s : DirState) :
    (setRootPage p).run s = Except.ok ((), { s with rootPage := p }) := rfl

theorem run_getStartFreePage (s : DirState) :
    getStartFreePage.run s = Except.ok (s.startFreePage, s) := rfl

theorem run_setStartFreePage (p : Nat) (s : DirState) :
    (setStartFreePage p).run s = Except.ok ((), { s with startFreePage := p }) := rfl

theorem run_getNumFreePage (s : DirState) :
    getNumFreePage.run s = Except.ok (s.numFreePage, s) := rfl

theorem run_setNumFreePage (p : Nat) (s : DirState) :
    (setNumFreePage p).run s = Except.ok ((), { s with numFreePage := p }) := rfl

theorem run_getNode (num : Nat) (s : DirState) :
    (getNode num).run s =
      match cacheFind s.cache num with
      | some n => Except.ok (n, s)
      | none => Except.error DirErr.corrupted := by
  cases h : cacheFind s.cache num <;>
    simp only [getNode, run_bind, run_get, run_pure, run_throw, h]

theorem run_modifyNode (num : Nat) (f : BtreeNode → BtreeNode) (s : DirState) :
    (modifyNode num f).run s = Except.ok ((), { s with cache := cacheUpdate s.cache num f }) := rfl

theorem run_atIdx {α : Type} (l : List α) (i : Nat) (s : DirState) :
    (atIdx l i).run s =
      match l.get? i with
      | some x => Except.ok (x, s)
      | none => Except.error DirErr.outOfRange := by
  cases h : l.get? i <;> simp only [atIdx, run_pure, run_throw, h]

theorem run_streamReadBlock (p : Nat) (s : DirState) :
    (streamReadBlock p).run s =
      match s.stream.get? p with
      | some b => Except.ok (b, s)
      | none => Except.error DirErr.corrupted := by
  cases h : s.stream.get? p <;>
    simp only [streamReadBlock, run_bind, run_get, run_pure, run_throw, h]

theorem run_streamWriteBlock (cfg : Config) (p : Nat) (b : List Byte) (s : DirState) :
    (streamWriteBlock cfg p b).run s =
      Except.ok ((), { s with stream := writeBlockAt cfg s.stream p b }) := rfl

theorem run_streamResize (cfg : Config) (n : Nat) (s : DirState) :
    (streamResize cfg n).run s =
      Except.ok ((), { s with
        stream := s.stream.take n ++ List.replicate (n - s.stream.length) (zeroBlock cfg) }) := rfl

theorem run_retrieve_existing_node (num : Nat) (s : DirState) :
    (retrieve_existing_node num).run s = Except.ok (cacheFind s.cache num, s) := rfl

theorem run_write_free_page (cfg : Config) (num nxt prv : Nat) (s : DirState) :
    (write_free_page cfg num nxt prv).run s =
      Except.ok ((), { s with stream := (writeBlockAt cfg s.stream num
        ([0, 0, 0, 0] ++ toLE4 nxt ++ toLE4 prv ++ List.replicate (cfg.blockSize - 12) 0)) }) := rfl

theorem run_read_free_page (cfg : Config) (num : Nat) (blk : List Byte) (s : DirState)
    (hb : s.stream.get? num = some blk) (hl : blk.length = cfg.blockSize)
    (hflag : fromLE (blk.take 4) = 0) :
    (read_free_page cfg num).run s =
      Except.ok ((fromLE ((blk.drop 4).take 4), fromLE ((blk.drop 8).take 4)), s) := by
  have hb' : s.stream[num]? = some blk := by
    rw [← List.get?_eq_getElem?]
    exact hb
  simp [read_free_page, run_bind, run_streamReadBlock, hb', run_dirCheck, hl, hflag, run_pure,
    exceptOkBind, exceptErrorBind]

/-! The free-page allocator contract (claim C9). -/

/-- Grow branch of `allocate_page`: empty free list. -/
theorem allocate_grow (cfg : Config) (st : DirState) (h : st.startFreePage = INVALID_PAGE) :
    (allocate_page cfg).run st =
      Except.ok (u32 st.stream.length, { st with stream := st.stream ++ [zeroBlock cfg] }) := by
  simp only [allocate_page, run_bind, run_getStartFreePage, h, if_true, run_get,
    run_streamResize, run_pure, ite_true]
  have h1 : st.stream.take (st.stream.length + 1) = st.stream := by
    exact List.take_of_length_le (Nat.le_succ _)
  have h2 : st.stream.length + 1 - st.stream.length = 1 := by omega
  simp [h1, h2]

theorem allocate_from_free_list_last (cfg : Config) (st : DirState) (blkH : List Byte)
    (h : st.startFreePage ≠ INVALID_PAGE)
    (hb : st.stream.get? st.startFreePage = some blkH)
    (hl : blkH.length = cfg.blockSize)
    (hflag : fromLE (blkH.take 4) = 0)
    (hnx : fromLE ((blkH.drop 4).take 4) = INVALID_PAGE) :
    (allocate_page cfg).run st =
      Except.ok (st.startFreePage,
        { st with startFreePage := INVALID_PAGE,
                  numFreePage := u32 (st.numFreePage + 4294967295) }) := by
  simp only [allocate_page, run_bind, run_getStartFreePage, h, if_neg, if_false,
    run_read_free_page cfg st.startFreePage blkH st hb hl hflag,
    run_getNumFreePage, run_setNumFreePage, run_setStartFreePage, run_pure, hnx,
    ite_false, ite_true, if_true]
  simp [hnx]
  rfl

theorem allocate_from_free_list_more (cfg : Config) (st : DirState) (blkH blkN : List Byte)
    (h : st.startFreePage ≠ INVALID_PAGE)
    (hb : st.stream.get? st.startFreePage = some blkH)
    (hl : blkH.length = cfg.blockSize)
    (hflag : fromLE (blkH.take 4) = 0)
    (hnx : fromLE ((blkH.drop 4).take 4) ≠ INVALID_PAGE)
    (hbn : st.stream.get? (fromLE ((blkH.drop 4).take 4)) = some blkN)
    (hln : blkN.length = cfg.blockSize)
    (hflagn : fromLE (blkN.take 4) = 0) :
    (allocate_page cfg).run st =
      Except.ok (st.startFreePage,
        { st with
            startFreePage := fromLE ((blkH.drop 4).take 4),
            numFreePage := u32 (st.numFreePage + 4294967295),
            stream := (writeBlockAt cfg st.stream (fromLE ((blkH.drop 4).take 4))
              ([0, 0, 0, 0] ++ toLE4 (fromLE ((blkN.drop 4).take 4)) ++ toLE4 INVALID_PAGE ++
                List.replicate (cfg.blockSize - 12) 0)) }) := by
  have hb2 : ({ st with
                  startFreePage := fromLE ((blkH.drop 4).take 4),
                  numFreePage := u32 (st.numFreePage + 4294967295) } : DirState).stream.get?
      (fromLE ((blkH.drop 4).take 4)) = some blkN := hbn
  have h3 := run_read_free_page cfg (fromLE ((blkH.drop 4).take 4)) blkN
    ({ st with
        startFreePage := fromLE ((blkH.drop 4).take 4),
        numFreePage := u32 (st.numFreePage + 4294967295) }) hb2 hln hflagn
  simp only [allocate_page, run_bind, run_getStartFreePage, h, if_neg, if_false,
    run_read_free_page cfg st.startFreePage blkH st hb hl hflag,
    run_getNumFreePage, run_setNumFreePage, run_setStartFreePage, run_pure,
    ite_true, ite_false]
  rw [if_pos hnx]
  simp only [run_bind, h3, run_getStartFreePage, run_map, run_write_free_page, run_pure]

theorem writeBlockAt_length_of_lt (cfg : Config) (s : List (List Byte)) (p : Nat) (b : List Byte)
    (h : p < s.length) : (writeBlockAt cfg s p b).length = s.length := by
  simp [writeBlockAt, h]

/-- C9: the `allocate_page` contract: with an empty free list the stream grows
by exactly one block and the old high-water mark is returned; otherwise the
free-list head is returned, `start_free_page` moves to its next pointer,
`num_free_page` is decremented (uint32), the new head's `prev` is cleared to
INVALID_PAGE when it exists, and the stream is never extended. -/
theorem C9_allocate_page_contract (cfg : Config) (st : DirState) :
    (st.startFreePage = INVALID_PAGE →
      (allocate_page cfg).run st =
        Except.ok (u32 st.stream.length, { st with stream := st.stream ++ [zeroBlock cfg] })) ∧
    (∀ blkH : List Byte,
      st.startFreePage ≠ INVALID_PAGE →
      st.stream.get? st.startFreePage = some blkH →
      blkH.length = cfg.blockSize →
      fromLE (blkH.take 4) = 0 →
      ((fromLE ((blkH.drop 4).take 4) = INVALID_PAGE →
        (allocate_page cfg).run st =
          Except.ok (st.startFreePage,
            { st with startFreePage := INVALID_PAGE,
                      numFreePage := u32 (st.numFreePage + 4294967295) })) ∧
      (∀ blkN : List Byte,
        fromLE ((blkH.drop 4).take 4) ≠ INVALID_PAGE →
        st.stream.get? (fromLE ((blkH.drop 4).take 4)) = some blkN →
        blkN.length = cfg.blockSize →
        fromLE (blkN.take 4) = 0 →
        (allocate_page cfg).run st =
          Except.ok (st.startFreePage,
            { st with
                startFreePage := fromLE ((blkH.drop 4).take 4),
                numFreePage := u32 (st.numFreePage + 4294967295),
                stream := (writeBlockAt cfg st.stream (fromLE ((blkH.drop 4).take 4))
                  ([0, 0, 0, 0] ++ toLE4 (fromLE ((blkN.drop 4).take 4)) ++ toLE4 INVALID_PAGE ++
                    List.replicate (cfg.blockSize - 12) 0)) }) ∧
        (writeBlockAt cfg st.stream (fromLE ((blkH.drop 4).take 4))
          ([0, 0, 0, 0] ++ toLE4 (fromLE ((blkN.drop 4).take 4)) ++ toLE4 INVALID_PAGE ++
            List.replicate (cfg.blockSize - 12) 0)).length = st.stream.length))) ∧
    (1 ≤ st.numFreePage → st.numFreePage < 4294967296 →
      u32 (st.numFreePage + 4294967295) = st.numFreePage - 1) := by
  refine ⟨fun h => allocate_grow cfg st h, fun blkH h hb hl hflag => ⟨?_, ?_⟩, ?_⟩
  · exact fun hnx => allocate_from_free_list_last cfg st blkH h hb hl hflag hnx
  · intro blkN hnx hbn hln hflagn
    refine ⟨allocate_from_free_list_more cfg st blkH blkN h hb hl hflag hnx hbn hln hflagn, ?_⟩
    have hlt : fromLE ((blkH.drop 4).take 4) < st.stream.length := by
      rcases List.get?_eq_some.mp hbn with ⟨hlt, _⟩
      exact hlt
    exact writeBlockAt_length_of_lt cfg st.stream _ _ hlt
  · intro h1 h2
    simp only [u32]
    omega

def fpBlockA (nxt prv : Nat) : List Byte :=
  [0, 0, 0, 0] ++ toLE4 nxt ++ toLE4 prv ++ List.replicate 4 0

def stFreeList : DirState :=
  ⟨[List.replicate 16 1, fpBlockA 2 INVALID_PAGE, fpBlockA INVALID_PAGE 1], 0, 1, 2, []⟩

theorem C9_allocate_page_contract_witness :
    (initialState.startFreePage = INVALID_PAGE ∧
      (allocate_page cfgA).run initialState =
        Except.ok (u32 initialState.stream.length,
          { initialState with stream := initialState.stream ++ [zeroBlock cfgA] })) ∧
    (stFreeList.startFreePage ≠ INVALID_PAGE ∧
      stFreeList.stream.get? stFreeList.startFreePage = some (fpBlockA 2 INVALID_PAGE) ∧
      (fpBlockA 2 INVALID_PAGE).length = cfgA.blockSize ∧
      fromLE ((fpBlockA 2 INVALID_PAGE).take 4) = 0 ∧
      fromLE (((fpBlockA 2 INVALID_PAGE).drop 4).take 4) ≠ INVALID_PAGE ∧
      (allocate_page cfgA).run stFreeList =
        Except.ok (stFreeList.startFreePage,
          { stFreeList with
              startFreePage := fromLE (((fpBlockA 2 INVALID_PAGE).drop 4).take 4),
              numFreePage := u32 (stFreeList.numFreePage + 4294967295),
              stream := (writeBlockAt cfgA stFreeList.stream
                (fromLE (((fpBlockA 2 INVALID_PAGE).drop 4).take 4))
                ([0, 0, 0, 0] ++ toLE4 (fromLE (((fpBlockA INVALID_PAGE 1).drop 4).take 4)) ++
                  toLE4 INVALID_PAGE ++ List.replicate (cfgA.blockSize - 12) 0)) })) := by
  constructor
  · exact ⟨rfl, (C9_allocate_page_contract cfgA initialState).1 rfl⟩
  · refine ⟨by decide, by decide, by decide, by decide, by decide, ?_⟩
    exact ((((C9_allocate_page_contract cfgA stFreeList).2.1 (fpBlockA 2 INVALID_PAGE)
      (by decide) (by decide) (by decide) (by decide)).2 (fpBlockA INVALID_PAGE 1)
      (by decide) (by decide) (by decide) (by decide))).1

/-! Read-only nature of lookups, and the no-mutation contract of duplicate
inserts and absent removes (claims C6, and groundwork for C7). -/

/-- The four durable components of the state: the paged stream and the three
header scalars.  (`SameCore s s'` says an operation changed at most the node
cache.) -/
def SameCore (s s' : DirState) : Prop :=
  s'.stream = s.stream ∧ s'.rootPage = s.rootPage ∧
  s'.startFreePage = s.startFreePage ∧ s'.numFreePage = s.numFreePage

theorem sameCore_refl (s : DirState) : SameCore s s := ⟨rfl, rfl, rfl, rfl⟩

theorem sameCore_trans {s t u : DirState} (h1 : SameCore s t) (h2 : SameCore t u) :
    SameCore s u :=
  ⟨h2.1.trans h1.1, h2.2.1.trans h1.2.1, h2.2.2.1.trans h1.2.2.1, h2.2.2.2.trans h1.2.2.2⟩

theorem bindOkInv {α β : Type} {m : DirM α} {f : α → DirM β} {s s₂ : DirState} {b : β}
    (h : (m >>= f).run s = Except.ok (b, s₂)) :
    ∃ a s₁, m.run s = Except.ok (a, s₁) ∧ (f a).run s₁ = Except.ok (b, s₂) := by
  rw [run_bind] at h
  cases hm : m.run s with
  | ok p =>
    rw [hm] at h
    exact ⟨p.1, p.2, rfl, h⟩
  | error e =>
    rw [hm] at h
    cases h

theorem read_node_core {cfg : Config} {num ph : Nat} {s s' : DirState} {n : BtreeNode}
    (h : (read_node cfg num ph).run s = Except.ok (n, s')) : s' = s := by
  unfold read_node at h
  split at h
  · rw [run_throw] at h
    cases h
  · rcases bindOkInv h with ⟨b, s₁, hread, h2⟩
    rw [run_streamReadBlock] at hread
    revert hread
    cases s.stream.get? num with
    | none => intro hread; cases hread
    | some blk =>
      intro hread
      cases hread
      rcases bindOkInv h2 with ⟨u, s₂, hchk, h3⟩
      rw [run_dirCheck] at hchk
      revert hchk
      split
      · intro hchk
        cases hchk
        revert h3
        split
        · intro h3
          cases h3
          rfl
        · intro h3
          rw [run_throw] at h3
          cases h3
      · intro hchk
        cases hchk

theorem retrieve_node_core {cfg : Config} {pn num : Nat} {s s' : DirState} {n : BtreeNode}
    (h : (retrieve_node cfg pn num).run s = Except.ok (n, s')) : SameCore s s' := by
  unfold retrieve_node at h
  rcases bindOkInv h with ⟨st0, s₁, hget, h2⟩
  rw [run_get] at hget
  cases hget
  revert h2
  cases hc : cacheFind s.cache num with
  | some m =>
    intro h2
    rcases bindOkInv h2 with ⟨u, s₂, hchk, h3⟩
    rw [run_dirCheck] at hchk
    revert hchk
    split
    · intro hchk
      cases hchk
      cases h3
      exact sameCore_refl s
    · intro hchk
      cases hchk
  | none =>
    intro h2
    rcases bindOkInv h2 with ⟨m, s₂, hread, h3⟩
    have hs2 : s₂ = s := read_node_core hread
    subst hs2
    rcases bindOkInv h3 with ⟨u, s₃, hmod, h4⟩
    rw [run_modify] at hmod
    cases hmod
    cases h4
    exact ⟨rfl, rfl, rfl, rfl⟩

theorem get_root_node_core {cfg : Config} {s s' : DirState} {r : Option BtreeNode}
    (h : (get_root_node cfg).run s = Except.ok (r, s')) : SameCore s s' := by
  unfold get_root_node at h
  rcases bindOkInv h with ⟨pg, s₁, hget, h2⟩
  rw [run_getRootPage] at hget
  cases hget
  revert h2
  split
  · intro h2
    cases h2
    exact sameCore_refl s
  · intro h2
    rcases bindOkInv h2 with ⟨n, s₂, hret, h3⟩
    cases h3
    exact retrieve_node_core hret

theorem findLoop_core {cfg : Config} :
    ∀ (fuel : Nat) (n : BtreeNode) (name : List Byte) (s s' : DirState)
      (r : Option Nat × Nat × Bool),
      (findLoop cfg fuel n name).run s = Except.ok (r, s') → SameCore s s' := by
  intro fuel
  induction fuel with
  | zero =>
    intro n name s s' r h
    rw [findLoop, run_throw] at h
    cases h
  | succ fuel ih =>
    intro n name s s' r h
    rw [findLoop] at h
    revert h
    split
    · intro h
      cases h
      exact sameCore_refl s
    · split
      · intro h
        cases h
        exact sameCore_refl s
      · intro h
        rcases bindOkInv h with ⟨c, s₁, hat, h2⟩
        rw [run_atIdx] at hat
        revert hat
        cases n.child_indices.get? (lowerBoundIdx (entLtName cfg) n.entries name) with
        | none =>
          intro hat
          cases hat
        | some c0 =>
          intro hat
          cases hat
          rcases bindOkInv h2 with ⟨n', s₂, hret, h3⟩
          exact sameCore_trans (retrieve_node_core hret) (ih n' name s₂ s' r h3)

theorem find_node_core {cfg : Config} {name : List Byte} {s s' : DirState}
    {r : Option Nat × Nat × Bool}
    (h : (find_node cfg name).run s = Except.ok (r, s')) : SameCore s s' := by
  unfold find_node at h
  rcases bindOkInv h with ⟨ro, s₁, hroot, h2⟩
  have hc := get_root_node_core hroot
  revert h2
  cases ro with
  | none =>
    intro h2
    cases h2
    exact hc
  | some n =>
    intro h2
    exact sameCore_trans hc (findLoop_core BTREE_MAX_DEPTH n name s₁ s' r h2)

/-- C6: if `find_node` reports the name present (`is_equal`), `add_entry`
returns false and changes nothing but the cache; if it reports it absent,
`remove_entry` returns nothing and changes nothing but the cache.  In both
cases the stream contents, root page and free list are exactly those left by
the (read-only) lookup, which itself only populates the cache. -/
theorem C6_present_add_absent_remove_unchanged (cfg : Config) (st st₁ : DirState)
    (name id : List Byte) (ty : Nat) (r : Option Nat × Nat × Bool) :
    (name.length ≤ cfg.maxFilenameLength →
      (find_node cfg name).run st = Except.ok (r, st₁) →
      r.2.2 = true →
      (add_entry cfg name id ty).run st = Except.ok (false, st₁) ∧ SameCore st st₁) ∧
    (name.length ≤ cfg.maxFilenameLength →
      (find_node cfg name).run st = Except.ok (r, st₁) →
      r.2.2 = false →
      (remove_entry cfg name).run st = Except.ok (none, st₁) ∧ SameCore st st₁) := by
  constructor
  · intro hlen hfind heq
    refine ⟨?_, find_node_core hfind⟩
    unfold add_entry
    rw [if_neg (by omega : ¬(name.length > cfg.maxFilenameLength))]
    rw [run_bind, hfind]
    simp only [heq, ite_true, if_true, run_pure]
  · intro hlen hfind heq
    refine ⟨?_, find_node_core hfind⟩
    unfold remove_entry
    rw [if_neg (by omega : ¬(name.length > cfg.maxFilenameLength))]
    rw [run_bind, hfind]
    cases hr1 : r.1 with
    | none => simp only [hr1, run_pure]
    | some pg => simp only [hr1, heq, Bool.not_false, ite_true, if_true, run_pure]

def leafEntryA : DirEntry := ⟨[97], [7, 7], 0⟩

def stOneLeaf : DirState :=
  ⟨[zeroBlock cfgA], 0, INVALID_PAGE, 0, [(0, ⟨0, INVALID_PAGE, [leafEntryA], [], false⟩)]⟩

theorem C6_present_add_absent_remove_unchanged_witness :
    (([97] : List Byte).length ≤ cfgA.maxFilenameLength ∧
      (find_node cfgA [97]).run stOneLeaf = Except.ok ((some 0, 0, true), stOneLeaf) ∧
      (add_entry cfgA [97] [9, 9] 5).run stOneLeaf = Except.ok (false, stOneLeaf) ∧
      SameCore stOneLeaf stOneLeaf) ∧
    (([98] : List Byte).length ≤ cfgA.maxFilenameLength ∧
      (find_node cfgA [98]).run stOneLeaf = Except.ok ((some 0, 1, false), stOneLeaf) ∧
      (remove_entry cfgA [98]).run stOneLeaf = Except.ok (none, stOneLeaf) ∧
      SameCore stOneLeaf stOneLeaf) := by
  have h1 := (C6_present_add_absent_remove_unchanged cfgA stOneLeaf stOneLeaf [97] [9, 9] 5
    (some 0, 0, true)).1 (by decide) (by decide) rfl
  have h2 := (C6_present_add_absent_remove_unchanged cfgA stOneLeaf stOneLeaf [98] [9, 9] 5
    (some 0, 1, false)).2 (by decide) (by decide) rfl
  exact ⟨⟨by decide, by decide, h1.1, h1.2⟩, ⟨by decide, by decide, h2.1, h2.2⟩⟩

/-! The node codec round-trip (claim C10). -/

theorem toLE4_length (n : Nat) : (toLE4 n).length = 4 := rfl

theorem toLE2_length (n : Nat) : (toLE2 n).length = 2 := rfl

theorem fromLE_toLE4 (n : Nat) (h : n < 4294967296) : fromLE (toLE4 n) = n := by
  simp only [toLE4, fromLE, List.foldr]
  omega

theorem fromLE_toLE2 (n : Nat) (h : n < 65536) : fromLE (toLE2 n) = n := by
  simp only [toLE2, fromLE, List.foldr]
  omega

theorem takeExact_append (k : Nat) (xs rest : List Byte) (h : xs.length = k) :
    takeExact k (xs ++ rest) = Except.ok (xs, rest) := by
  subst h
  rw [takeExact, if_pos]
  · rw [List.take_left, List.drop_left]
  · simp

theorem flatten_map_toLE4_length (cs : List Nat) :
    ((cs.map toLE4).flatten).length = 4 * cs.length := by
  induction cs with
  | nil => rfl
  | cons c cs ih =>
    simp [List.flatten, toLE4_length, ih]
    omega

theorem readChildrenLoop_enc (cs : List Nat) (rest : List Byte)
    (h : ∀ c ∈ cs, c < 4294967296) :
    readChildrenLoop cs.length ((cs.map toLE4).flatten ++ rest) = Except.ok (cs, rest) := by
  induction cs with
  | nil => rfl
  | cons c cs ih =>
    have hc : c < 4294967296 := h c (List.mem_cons_self c cs)
    have hrest : ∀ x ∈ cs, x < 4294967296 := fun x hx => h x (List.mem_cons_of_mem c hx)
    show readChildrenLoop (cs.length + 1) ((toLE4 c ++ (cs.map toLE4).flatten) ++ rest) =
      Except.ok (c :: cs, rest)
    rw [readChildrenLoop, List.append_assoc, takeExact_append 4 (toLE4 c) _ (toLE4_length c)]
    show (readChildrenLoop cs.length ((cs.map toLE4).flatten ++ rest)).bind _ = _
    rw [ih hrest]
    show Except.ok (fromLE (toLE4 c) :: cs, rest) = _
    rw [fromLE_toLE4 c hc]

theorem takeWhile_ne0 (name junk : List Byte) (h : ¬ 0 ∈ name) :
    (name ++ 0 :: junk).takeWhile (fun b => b ≠ 0) = name := by
  induction name with
  | nil => simp [List.takeWhile]
  | cons a name ih =>
    have ha : a ≠ 0 := fun he => h (he ▸ List.mem_cons_self a name)
    have h2 : ¬ 0 ∈ name := fun hm => h (List.mem_cons_of_mem a hm)
    rw [List.cons_append]
    have hrec := ih h2
    simp only [ne_eq, decide_not] at hrec
    simp [List.takeWhile_cons, ha, hrec]

theorem decodeFilename_enc (cfg : Config) (name : List Byte)
    (hlen : name.length ≤ cfg.maxFilenameLength) (h0 : ¬ 0 ∈ name) :
    decodeFilename cfg (name ++ List.replicate (cfg.maxFilenameLength + 1 - name.length) 0) =
      name := by
  unfold decodeFilename
  rw [List.take_append_eq_append_take, List.take_of_length_le hlen, List.take_replicate]
  have hmin : min (cfg.maxFilenameLength - name.length)
      (cfg.maxFilenameLength + 1 - name.length) = cfg.maxFilenameLength - name.length := by
    omega
  rw [hmin]
  have : (List.replicate (cfg.maxFilenameLength - name.length) (0 : Byte)) ++ [0] =
      0 :: List.replicate (cfg.maxFilenameLength - name.length) 0 := by
    induction (cfg.maxFilenameLength - name.length) with
    | zero => rfl
    | succ k ih => simp [List.replicate, ih]
  rw [List.append_assoc, this]
  exact takeWhile_ne0 name _ h0

/-- Well-formedness of one directory entry for serialisation: legal non-empty
NUL-free name, id of the fixed width, `uint32` type. -/
def EntryWf (cfg : Config) (e : DirEntry) : Prop :=
  e.filename ≠ [] ∧ ¬ 0 ∈ e.filename ∧ e.filename.length ≤ cfg.maxFilenameLength ∧
  e.id.length = cfg.idSize ∧ e.type < 4294967296

theorem encodeFilename_ok (cfg : Config) (name : List Byte)
    (h : name.length ≤ cfg.maxFilenameLength) :
    encodeFilename cfg name =
      Except.ok (name ++ List.replicate (cfg.maxFilenameLength + 1 - name.length) 0) := by
  rw [encodeFilename, if_neg]
  omega

theorem encodeEntries_roundtrip (cfg : Config) (es : List DirEntry)
    (h : ∀ e ∈ es, EntryWf cfg e) :
    ∃ body : List Byte,
      encodeEntries cfg es = Except.ok body ∧
      body.length = es.length * (cfg.maxFilenameLength + 1 + cfg.idSize + 4) ∧
      ∀ rest, readEntriesLoop cfg es.length (body ++ rest) = Except.ok (es, rest) := by
  induction es with
  | nil => exact ⟨[], rfl, by simp, fun rest => rfl⟩
  | cons e es ih =>
    obtain ⟨hne, h0, hlen, hid, hty⟩ := h e (List.mem_cons_self e es)
    obtain ⟨body, henc, hblen, hread⟩ := ih (fun x hx => h x (List.mem_cons_of_mem e hx))
    have hfn := encodeFilename_ok cfg e.filename hlen
    have hfnlen : (e.filename ++
        List.replicate (cfg.maxFilenameLength + 1 - e.filename.length) 0).length =
        cfg.maxFilenameLength + 1 := by
      simp [List.length_append, List.length_replicate]
      omega
    refine ⟨(e.filename ++ List.replicate (cfg.maxFilenameLength + 1 - e.filename.length) 0) ++
      e.id ++ toLE4 e.type ++ body, ?_, ?_, ?_⟩
    · show (encodeFilename cfg e.filename).bind _ = _
      rw [hfn]
      show (encodeEntries cfg es).bind _ = _
      rw [henc]
      simp [Except.bind, List.append_assoc]
    · simp only [List.length_append, hfnlen, toLE4_length, hblen, List.length_cons, hid]
      ring
    · intro rest
      show readEntriesLoop cfg (es.length + 1) _ = _
      rw [readEntriesLoop]
      rw [List.append_assoc, List.append_assoc, List.append_assoc,
        takeExact_append _ _ _ hfnlen]
      show (takeExact cfg.idSize (e.id ++ (toLE4 e.type ++ (body ++ rest)))).bind _ = _
      rw [takeExact_append _ _ _ hid]
      show (takeExact 4 (toLE4 e.type ++ (body ++ rest))).bind _ = _
      rw [takeExact_append _ _ _ (toLE4_length e.type)]
      show (readEntriesLoop cfg es.length (body ++ rest)).bind _ = _
      rw [hread rest]
      show Except.ok (⟨decodeFilename cfg _, e.id, fromLE (toLE4 e.type)⟩ :: es, rest) = _
      rw [decodeFilename_enc cfg e.filename hlen h0, fromLE_toLE4 e.type hty]

/-- C10: codec round-trip.  For every node whose filenames are non-empty,
NUL-free and legal-length, whose ids have the fixed width, whose types are
`uint32`, whose counts fit `uint16`, and whose encoded payload fits one
block, decoding the buffer produced by `to_buffer` yields exactly the node's
entries and child page numbers, in order. -/
theorem exceptOkBindFn {α β : Type} (a : α) (f : α → Except DirErr β) :
    (Except.ok a : Except DirErr α).bind f = f a := rfl

theorem C10_codec_roundtrip (cfg : Config) (n : BtreeNode)
    (hw : ∀ e ∈ n.entries, EntryWf cfg e)
    (hc : ∀ c ∈ n.child_indices, c < 4294967296)
    (hcl : n.child_indices.length < 65536)
    (hel : n.entries.length < 65536)
    (hfit : 8 + 4 * n.child_indices.length +
      n.entries.length * (cfg.maxFilenameLength + 1 + cfg.idSize + 4) ≤ cfg.blockSize) :
    (to_buffer cfg n.entries n.child_indices).bind (from_buffer cfg) =
      Except.ok (n.entries, n.child_indices) := by
  obtain ⟨body, henc, hblen, hread⟩ := encodeEntries_roundtrip cfg n.entries hw
  have hu16c : u16c n.child_indices.length = n.child_indices.length :=
    Nat.mod_eq_of_lt hcl
  have hu16e : u16c n.entries.length = n.entries.length :=
    Nat.mod_eq_of_lt hel
  have hplen : (toLE4 1 ++ toLE2 (u16c n.child_indices.length) ++
      toLE2 (u16c n.entries.length) ++ (n.child_indices.map toLE4).flatten ++ body).length =
      8 + 4 * n.child_indices.length +
        n.entries.length * (cfg.maxFilenameLength + 1 + cfg.idSize + 4) := by
    simp only [List.length_append, toLE4_length, toLE2_length, flatten_map_toLE4_length, hblen]
  unfold to_buffer
  simp only [henc, exceptOkBind]
  rw [if_pos (hplen.trans_le hfit)]
  unfold from_buffer
  rw [show (toLE4 1 ++ toLE2 (u16c n.child_indices.length) ++ toLE2 (u16c n.entries.length) ++
        (n.child_indices.map toLE4).flatten ++ body) ++
      List.replicate (cfg.blockSize - (toLE4 1 ++ toLE2 (u16c n.child_indices.length) ++
        toLE2 (u16c n.entries.length) ++ (n.child_indices.map toLE4).flatten ++ body).length) 0 =
      toLE4 1 ++ (toLE2 (u16c n.child_indices.length) ++ (toLE2 (u16c n.entries.length) ++
        ((n.child_indices.map toLE4).flatten ++ (body ++
          List.replicate (cfg.blockSize - (toLE4 1 ++ toLE2 (u16c n.child_indices.length) ++
            toLE2 (u16c n.entries.length) ++ (n.child_indices.map toLE4).flatten ++
            body).length) 0)))) from by simp [List.append_assoc]]
  simp only [exceptOkBindFn]
  rw [hu16c, hu16e]
  rw [takeExact_append 4 (toLE4 1) _ (toLE4_length 1)]
  simp only [exceptOkBind]
  rw [fromLE_toLE4 1 (by omega)]
  rw [if_neg (by omega : ¬ (1 : Nat) = 0)]
  rw [takeExact_append 2 _ _ (toLE2_length _)]
  simp only [exceptOkBind]
  rw [takeExact_append 2 _ _ (toLE2_length _)]
  simp only [exceptOkBind]
  rw [fromLE_toLE2 _ hcl]
  rw [readChildrenLoop_enc n.child_indices _ hc]
  simp only [exceptOkBind]
  rw [fromLE_toLE2 _ hel]
  rw [hread _]
  simp only [exceptOkBind]

def c10Node : BtreeNode :=
  ⟨0, INVALID_PAGE, [⟨[97], [7], 0⟩, ⟨[98, 99], [8], 3⟩], [5, 7, 9], false⟩

theorem C10_codec_roundtrip_witness :
    (∀ e ∈ c10Node.entries, EntryWf cfgB e) ∧
    (∀ c ∈ c10Node.child_indices, c < 4294967296) ∧
    c10Node.child_indices.length < 65536 ∧
    c10Node.entries.length < 65536 ∧
    8 + 4 * c10Node.child_indices.length +
      c10Node.entries.length * (cfgB.maxFilenameLength + 1 + cfgB.idSize + 4) ≤ cfgB.blockSize ∧
    (to_buffer cfgB c10Node.entries c10Node.child_indices).bind (from_buffer cfgB) =
      Except.ok (c10Node.entries, c10Node.child_indices) := by
  refine ⟨?_, ?_, ?_, ?_, ?_, ?_⟩
  · intro e he
    fin_cases he <;> exact ⟨by decide, by decide, by decide, by decide, by decide⟩
  · decide
  · decide
  · decide
  · decide
  · exact C10_codec_roundtrip cfgB c10Node
      (by intro e he; fin_cases he <;> exact ⟨by decide, by decide, by decide, by decide, by decide⟩)
      (by decide) (by decide) (by decide) (by decide)

/-! Lookup laws for the cache operations. -/

theorem cacheFind_cons (k : Nat) (m : BtreeNode) (rest : List (Nat × BtreeNode)) (q : Nat) :
    cacheFind ((k, m) :: rest) q = if k = q then some m else cacheFind rest q := rfl

theorem cacheUpdate_cons (k : Nat) (m : BtreeNode) (rest : List (Nat × BtreeNode)) (num : Nat)
    (f : BtreeNode → BtreeNode) :
    cacheUpdate ((k, m) :: rest) num f =
      (if k = num then (k, f m) else (k, m)) :: cacheUpdate rest num f := rfl

theorem cacheFind_update_eq (c : List (Nat × BtreeNode)) (num : Nat) (f : BtreeNode → BtreeNode) :
    cacheFind (cacheUpdate c num f) num = (cacheFind c num).map f := by
  induction c with
  | nil => rfl
  | cons p rest ih =>
    obtain ⟨k, m⟩ := p
    rw [cacheUpdate_cons]
    by_cases h : k = num
    · rw [if_pos h, cacheFind_cons, if_pos h, cacheFind_cons, if_pos h]
      rfl
    · rw [if_neg h, cacheFind_cons, if_neg h, cacheFind_cons, if_neg h]
      exact ih

theorem cacheFind_update_ne (c : List (Nat × BtreeNode)) (num q : Nat)
    (f : BtreeNode → BtreeNode) (h : q ≠ num) :
    cacheFind (cacheUpdate c num f) q = cacheFind c q := by
  induction c with
  | nil => rfl
  | cons p rest ih =>
    obtain ⟨k, m⟩ := p
    rw [cacheUpdate_cons]
    by_cases h2 : k = num
    · have hkq : ¬ k = q := fun he => h (he ▸ h2)
      rw [if_pos h2, cacheFind_cons, if_neg hkq, cacheFind_cons, if_neg hkq]
      exact ih
    · rw [if_neg h2, cacheFind_cons, cacheFind_cons]
      by_cases h3 : k = q
      · rw [if_pos h3, if_pos h3]
      · rw [if_neg h3, if_neg h3]
        exact ih

theorem cacheFind_insert_of_none (c : List (Nat × BtreeNode)) (num : Nat) (n : BtreeNode)
    (h : cacheFind c num = none) :
    cacheFind (cacheInsert c num n) num = some n := by
  induction c with
  | nil => simp [cacheInsert, cacheFind]
  | cons p rest ih =>
    obtain ⟨k, m⟩ := p
    rw [cacheFind_cons] at h
    by_cases h2 : k = num
    · rw [if_pos h2] at h
      cases h
    · rw [if_neg h2] at h
      rw [cacheInsert, List.cons_append, cacheFind_cons, if_neg h2]
      exact ih h

theorem cacheFind_insert_ne (c : List (Nat × BtreeNode)) (num q : Nat) (n : BtreeNode)
    (h : q ≠ num) :
    cacheFind (cacheInsert c num n) q = cacheFind c q := by
  induction c with
  | nil =>
    rw [cacheInsert, List.nil_append, cacheFind_cons, if_neg (fun he => h he.symm)]
  | cons p rest ih =>
    obtain ⟨k, m⟩ := p
    rw [cacheInsert, List.cons_append, cacheFind_cons, cacheFind_cons]
    by_cases h2 : k = q
    · rw [if_pos h2, if_pos h2]
    · rw [if_neg h2, if_neg h2]
      exact ih

/-- Pure effect of `adjustList`: re-parent every resident page of the list. -/
def adjustCachePure (v : Nat) : List Nat → List (Nat × BtreeNode) → List (Nat × BtreeNode)
  | [], c => c
  | q :: rest, c =>
    adjustCachePure v rest
      (match cacheFind c q with
       | some _ => cacheUpdate c q (fun m => { m with parent_page_number := v, dirty := true })
       | none => c)

theorem run_adjustList (v : Nat) (L : List Nat) (s : DirState) :
    (adjustList v L).run s = Except.ok ((), { s with cache := adjustCachePure v L s.cache }) := by
  induction L generalizing s with
  | nil => rfl
  | cons q rest ih =>
    cases hf : cacheFind s.cache q with
    | some m =>
      rw [adjustList, run_bind, run_get]
      simp only [hf]
      rw [run_bind, run_modifyNode]
      show (adjustList v rest).run _ = _
      rw [ih]
      rw [adjustCachePure]
      simp only [hf]
    | none =>
      rw [adjustList, run_bind, run_get]
      simp only [hf]
      rw [run_bind, run_pure]
      show (adjustList v rest).run _ = _
      rw [ih]
      rw [adjustCachePure]
      simp only [hf]

theorem cacheFind_adjustCachePure_not_mem (v q : Nat) (L : List Nat)
    (c : List (Nat × BtreeNode)) (h : ¬ q ∈ L) :
    cacheFind (adjustCachePure v L c) q = cacheFind c q := by
  induction L generalizing c with
  | nil => rfl
  | cons a rest ih =>
    have hqa : q ≠ a := fun he => h (he ▸ List.mem_cons_self a rest)
    have hrest : ¬ q ∈ rest := fun hm => h (List.mem_cons_of_mem a hm)
    rw [adjustCachePure]
    cases hfa : cacheFind c a with
    | some m => rw [ih _ hrest, cacheFind_update_ne _ _ _ _ hqa]
    | none => exact ih _ hrest

theorem cacheFind_adjustCachePure_mem (v q : Nat) (L : List Nat)
    (c : List (Nat × BtreeNode)) (h : q ∈ L) :
    cacheFind (adjustCachePure v L c) q =
      (cacheFind c q).map (fun m => { m with parent_page_number := v, dirty := true }) := by
  induction L generalizing c with
  | nil => cases h
  | cons a rest ih =>
    rw [adjustCachePure]
    by_cases hmem : q ∈ rest
    · cases hfa : cacheFind c a with
      | some m =>
        rw [ih _ hmem]
        by_cases hqa : q = a
        · subst hqa
          rw [cacheFind_update_eq, hfa]
          rfl
        · rw [cacheFind_update_ne _ _ _ _ hqa]
      | none => exact ih _ hmem
    · have hqa : q = a := by
        cases List.mem_cons.mp h with
        | inl h1 => exact h1
        | inr h2 => exact absurd h2 hmem
      subst hqa
      cases hfq : cacheFind c q with
      | some m =>
        rw [cacheFind_adjustCachePure_not_mem v q rest _ hmem,
          cacheFind_update_eq, hfq]
      | none =>
        rw [cacheFind_adjustCachePure_not_mem v q rest _ hmem, hfq]
        rfl

theorem run_adjust_children_in_cache (pg v : Nat) (s : DirState) (n : BtreeNode)
    (h : cacheFind s.cache pg = some n) :
    (adjust_children_in_cache pg v).run s =
      Except.ok ((), { s with cache := adjustCachePure v n.child_indices s.cache }) := by
  rw [adjust_children_in_cache, run_bind, run_getNode, h]
  exact run_adjustList v n.child_indices s

theorem insIdx_length {α : Type} (l : List α) (i : Nat) (x : α) :
    (insIdx l i x).length = l.length + 1 := by
  induction l generalizing i with
  | nil => cases i <;> rfl
  | cons a rest ih =>
    cases i with
    | zero => rfl
    | succ j => simp [insIdx, ih]

theorem mem_insIdx {α : Type} (l : List α) (i : Nat) (x y : α)
    (h : y ∈ insIdx l i x) : y ∈ l ∨ y = x := by
  induction l generalizing i with
  | nil =>
    cases i <;> simp [insIdx] at h <;> exact Or.inr h
  | cons a rest ih =>
    cases i with
    | zero =>
      rw [insIdx] at h
      cases List.mem_cons.mp h with
      | inl h1 => exact Or.inr h1
      | inr h2 => exact Or.inl h2
    | succ j =>
      rw [insIdx] at h
      cases List.mem_cons.mp h with
      | inl h1 => exact Or.inl (h1 ▸ List.mem_cons_self a rest)
      | inr h2 =>
        cases ih j h2 with
        | inl h3 => exact Or.inl (List.mem_cons_of_mem a h3)
        | inr h3 => exact Or.inr h3

theorem run_getNode_some (num : Nat) (s : DirState) (n : BtreeNode)
    (h : cacheFind s.cache num = some n) :
    (getNode num).run s = Except.ok (n, s) := by
  rw [run_getNode, h]

theorem run_retrieve_hit (cfg : Config) (pn num : Nat) (s : DirState) (n : BtreeNode)
    (h : cacheFind s.cache num = some n)
    (hp : pn = INVALID_PAGE ∨ pn = n.parent_page_number) :
    (retrieve_node cfg pn num).run s = Except.ok (n, s) := by
  rw [retrieve_node, run_bind, run_get]
  simp only [h]
  rw [run_bind, run_dirCheck, if_pos]
  · rfl
  · cases hp with
    | inl h1 => simp [h1]
    | inr h1 => simp [h1]

theorem from_buffer_zeroBlock (cfg : Config) (h : 4 ≤ cfg.blockSize) :
    from_buffer cfg (zeroBlock cfg) = Except.ok ([], []) := by
  unfold from_buffer zeroBlock
  rw [takeExact, if_pos (by simp [List.length_replicate]; omega)]
  rw [exceptOkBind]
  rw [List.take_replicate, show min 4 cfg.blockSize = 4 from by omega]
  rfl

theorem run_read_node_fresh (cfg : Config) (num ph : Nat) (s : DirState)
    (hb : s.stream.get? num = some (zeroBlock cfg))
    (hbs : 4 ≤ cfg.blockSize)
    (hnum : num ≠ INVALID_PAGE) :
    (read_node cfg num ph).run s = Except.ok (⟨num, ph, [], [], false⟩, s) := by
  rw [read_node, if_neg hnum, run_bind, run_streamReadBlock]
  simp only [hb]
  rw [run_bind, run_dirCheck, if_pos (by simp [zeroBlock, List.length_replicate])]
  rw [from_buffer_zeroBlock cfg hbs]
  rfl

theorem run_retrieve_fresh (cfg : Config) (pn num : Nat) (s : DirState)
    (hc : cacheFind s.cache num = none)
    (hb : s.stream.get? num = some (zeroBlock cfg))
    (hbs : 4 ≤ cfg.blockSize)
    (hnum : num ≠ INVALID_PAGE) :
    (retrieve_node cfg pn num).run s =
      Except.ok (⟨num, pn, [], [], false⟩,
        { s with cache := cacheInsert s.cache num ⟨num, pn, [], [], false⟩ }) := by
  rw [retrieve_node, run_bind, run_get]
  simp only [hc]
  rw [run_bind, run_read_node_fresh cfg num pn s hb hbs hnum]
  rfl

theorem get_concat_length {α : Type} (l : List α) (b : α) : (l ++ [b]).get? l.length = some b := by
  induction l with
  | nil => rfl
  | cons a rest ih => simpa using ih

theorem dropLast_take {α : Type} (l : List α) (k : Nat) (h : k < l.length) :
    (l.take (k + 1)).dropLast = l.take k := by
  rw [List.dropLast_eq_take, List.length_take]
  rw [show min (k + 1) l.length - 1 = k from by omega]
  rw [List.take_take]
  rw [show min k (k + 1) = k from by omega]

theorem run_atIdx_some {α : Type} {l : List α} {i : Nat} {x : α} (s : DirState)
    (h : l.get? i = some x) : (atIdx l i).run s = Except.ok (x, s) := by
  rw [run_atIdx, h]

theorem bind_step {α β : Type} {m : DirM α} {f : α → DirM β} {s s₁ : DirState} {a : α}
    {r : Except DirErr (β × DirState)}
    (h1 : m.run s = Except.ok (a, s₁)) (h2 : (f a).run s₁ = r) : (m >>= f).run s = r := by
  rw [run_bind, h1]
  exact h2

theorem bind_step_at {α β : Type} (m : DirM α) (f : α → DirM β) (s s₁ : DirState) (a : α)
    (r : Except DirErr (β × DirState))
    (h1 : m.run s = Except.ok (a, s₁)) (h2 : (f a).run s₁ = r) : (m >>= f).run s = r := by
  rw [run_bind, h1]
  exact h2

theorem insIdx_ne_nil {α : Type} (l : List α) (i : Nat) (x : α) : insIdx l i x ≠ [] := by
  have h := insIdx_length l i x
  intro he
  rw [he] at h
  simp at h

/-- C8: when `insert_and_balance` overflows a root node `n` to
`maxNumEntries + 1` entries, it splits at `mid = len / 2 - 1`: the promoted
entry is `entries1[mid]`, `n` retains exactly `entries1[0, mid)`, the newly
allocated sibling page receives `entries1[mid+1, len)`; if `n` is internal,
children from index `mid + 1` onward move to the sibling and resident moved
children are re-parented to the sibling; a fresh root page is allocated
holding exactly the promoted entry with children `[n, sibling]`, `root_page`
is updated to it, and both `n` and the sibling get the new root as parent. -/
theorem C8_split_mechanics (cfg : Config) (st : DirState) (p : Nat) (n : BtreeNode)
    (e : DirEntry) (aChild : Nat) (promoted : DirEntry)
    (i mid sibPg rootPg : Nat) (entries1 : List DirEntry) (c1 : List Nat)
    (hn : cacheFind st.cache p = some n)
    (hpage : n.page_number = p)
    (hparent : n.parent_page_number = INVALID_PAGE)
    (hlen : n.entries.length = cfg.maxNumEntries)
    (hmax : 1 ≤ cfg.maxNumEntries)
    (hbs : 4 ≤ cfg.blockSize)
    (hsf : st.startFreePage = INVALID_PAGE)
    (hhw : st.stream.length + 2 < INVALID_PAGE)
    (hfresh : ∀ q, st.stream.length ≤ q → cacheFind st.cache q = none)
    (hplt : p < st.stream.length)
    (htype : aChild = INVALID_PAGE ↔ n.child_indices = [])
    (hkid : ∀ k ∈ n.child_indices, k ≠ p ∧ k < st.stream.length)
    (hac : aChild ≠ INVALID_PAGE → aChild ≠ p ∧ aChild < st.stream.length)
    (hi : i = lowerBoundIdx (entLtEnt cfg) n.entries e)
    (hmid : mid = (cfg.maxNumEntries + 1) / 2 - 1)
    (hsib : sibPg = st.stream.length)
    (hroot : rootPg = st.stream.length + 1)
    (hent1 : entries1 = insIdx n.entries i e)
    (hc1 : c1 = if aChild = INVALID_PAGE then n.child_indices
      else insIdx n.child_indices (i + 1) aChild)
    (hprom : entries1.get? mid = some promoted) :
    ∃ st' : DirState,
      (insert_and_balance cfg BTREE_MAX_DEPTH p e aChild).run st = Except.ok ((), st') ∧
      st'.rootPage = rootPg ∧
      st'.stream = st.stream ++ [zeroBlock cfg, zeroBlock cfg] ∧
      st'.startFreePage = st.startFreePage ∧
      st'.numFreePage = st.numFreePage ∧
      cacheFind st'.cache p =
        some ⟨p, rootPg, entries1.take mid, c1.take (mid + 1), true⟩ ∧
      cacheFind st'.cache sibPg =
        some ⟨sibPg, rootPg, entries1.drop (mid + 1), c1.drop (mid + 1), true⟩ ∧
      cacheFind st'.cache rootPg =
        some ⟨rootPg, INVALID_PAGE, [promoted], [p, sibPg], true⟩ ∧
      (∀ q nq, q ∈ c1.drop (mid + 1) → cacheFind st.cache q = some nq →
        cacheFind st'.cache q =
          some ⟨nq.page_number, sibPg, nq.entries, nq.child_indices, true⟩) := by
  have hu1 : u32 st.stream.length = st.stream.length := by
    unfold u32 INVALID_PAGE at *
    omega
  have hu2 : u32 (st.stream.length + 1) = st.stream.length + 1 := by
    unfold u32 INVALID_PAGE at *
    omega
  have hiv1 : st.stream.length ≠ INVALID_PAGE := by
    unfold INVALID_PAGE at *
    omega
  have hiv2 : st.stream.length + 1 ≠ INVALID_PAGE := by
    unfold INVALID_PAGE at *
    omega
  have hg1 : (st.stream ++ [zeroBlock cfg]).get? st.stream.length = some (zeroBlock cfg) :=
    get_concat_length st.stream (zeroBlock cfg)
  have hg2 : ((st.stream ++ [zeroBlock cfg]) ++ [zeroBlock cfg]).get? (st.stream.length + 1) =
      some (zeroBlock cfg) := by
    have h := get_concat_length (st.stream ++ [zeroBlock cfg]) (zeroBlock cfg)
    simpa using h
  have hpne : p ≠ st.stream.length := by omega
  have hlnp : st.stream.length ≠ p := by omega
  have hpnr : p ≠ st.stream.length + 1 := by omega
  have hrnp : st.stream.length + 1 ≠ p := by omega
  have hlnr : st.stream.length ≠ st.stream.length + 1 := by omega
  have hrnl : st.stream.length + 1 ≠ st.stream.length := by omega
  have hmidlt : mid < entries1.length := by
    rw [hent1, insIdx_length, hlen, hmid]
    omega
  subst hi hent1 hsib hroot hmid
  by_cases hleaf : n.child_indices = []
  · -- leaf root split
    have haC : aChild = INVALID_PAGE := htype.mpr hleaf
    rw [if_pos haC] at hc1
    subst hc1
    apply Exists.intro
    refine ⟨?_, ?_, ?_, ?_, ?_, ?_, ?_, ?_, ?_⟩
    · rw [show BTREE_MAX_DEPTH = 31 + 1 from rfl]
      rw [insert_and_balance]
      refine bind_step (run_getNode_some p st n hn) ?_
      simp only []
      rw [if_neg (by simp [hleaf])]
      refine bind_step (run_pure () st) ?_
      refine bind_step (run_modifyNode _ _ _) ?_
      refine bind_step (run_getNode_some p _
          ⟨n.page_number, n.parent_page_number,
            insIdx n.entries (lowerBoundIdx (entLtEnt cfg) n.entries e) e, n.child_indices, true⟩
          (by simp only [cacheFind_update_eq, hn, Option.map_some'])) ?_
      simp only []
      rw [if_pos (show (insIdx n.entries (lowerBoundIdx (entLtEnt cfg) n.entries e) e).length >
        cfg.maxNumEntries from by rw [insIdx_length, hlen]; omega)]
      refine bind_step (allocate_grow cfg _ hsf) ?_
      dsimp only
      rw [hu1]
      refine bind_step (run_retrieve_fresh cfg n.parent_page_number st.stream.length _
        (by
          dsimp only
          rw [cacheFind_update_ne _ _ _ _ hlnp]
          exact hfresh _ (Nat.le_refl _))
        (by dsimp only; exact hg1) hbs hiv1) ?_
      dsimp only
      rw [insIdx_length, hlen]
      refine bind_step (run_atIdx_some _ hprom) ?_
      dsimp only
      rw [if_neg (by simp [hleaf])]
      refine bind_step (run_pure () _) ?_
      refine bind_step (run_modifyNode _ _ _) ?_
      refine bind_step (run_modifyNode _ _ _) ?_
      refine bind_step (run_modifyNode _ _ _) ?_
      dsimp only
      rw [if_pos hparent]
      refine bind_step (allocate_grow cfg _ hsf) ?_
      dsimp only
      rw [show (st.stream ++ [zeroBlock cfg]).length = st.stream.length + 1 from by simp]
      rw [hu2]
      refine bind_step (run_retrieve_fresh cfg INVALID_PAGE (st.stream.length + 1) _
        (by
          dsimp only
          rw [cacheFind_update_ne _ _ _ _ hrnp]
          rw [cacheFind_update_ne _ _ _ _ hrnp]
          rw [cacheFind_update_ne _ _ _ _ hrnl]
          rw [cacheFind_insert_ne _ _ _ _ hrnl]
          rw [cacheFind_update_ne _ _ _ _ hrnp]
          exact hfresh _ (by omega))
        (by dsimp only; exact hg2) hbs hiv2) ?_
      dsimp only
      refine bind_step (run_modifyNode _ _ _) ?_
      refine bind_step (run_modifyNode _ _ _) ?_
      refine bind_step (run_setRootPage _ _) ?_
      refine bind_step (run_modifyNode _ _ _) ?_
      rw [run_modifyNode]
    · rfl
    · simp
    · rfl
    · rfl
    · -- node p
      dsimp only
      rw [cacheFind_update_ne _ _ _ _ hpne]
      rw [cacheFind_update_eq]
      rw [cacheFind_update_ne _ _ _ _ hpnr]
      rw [cacheFind_update_ne _ _ _ _ hpnr]
      rw [cacheFind_insert_ne _ _ _ _ hpnr]
      rw [cacheFind_update_eq]
      rw [cacheFind_update_eq]
      rw [cacheFind_update_ne _ _ _ _ hpne]
      rw [cacheFind_insert_ne _ _ _ _ hpne]
      rw [cacheFind_update_eq]
      rw [hn]
      simp only [Option.map_some']
      rw [dropLast_take _ _ (by rw [insIdx_length, hlen]; omega)]
      simp [hpage, hleaf]
    · -- sibling
      dsimp only
      rw [cacheFind_update_eq]
      rw [cacheFind_update_ne _ _ _ _ hlnp]
      rw [cacheFind_update_ne _ _ _ _ hlnr]
      rw [cacheFind_update_ne _ _ _ _ hlnr]
      rw [cacheFind_insert_ne _ _ _ _ hlnr]
      rw [cacheFind_update_ne _ _ _ _ hlnp]
      rw [cacheFind_update_ne _ _ _ _ hlnp]
      rw [cacheFind_update_eq]
      rw [cacheFind_insert_of_none _ _ _
        (by rw [cacheFind_update_ne _ _ _ _ hlnp]; exact hfresh _ (Nat.le_refl _))]
      simp [hleaf]
    · -- new root
      dsimp only
      rw [cacheFind_update_ne _ _ _ _ hrnl]
      rw [cacheFind_update_ne _ _ _ _ hrnp]
      rw [cacheFind_update_eq]
      rw [cacheFind_update_eq]
      rw [cacheFind_insert_of_none _ _ _
        (by
          rw [cacheFind_update_ne _ _ _ _ hrnp]
          rw [cacheFind_update_ne _ _ _ _ hrnp]
          rw [cacheFind_update_ne _ _ _ _ hrnl]
          rw [cacheFind_insert_ne _ _ _ _ hrnl]
          rw [cacheFind_update_ne _ _ _ _ hrnp]
          exact hfresh _ (by omega))]
      simp
    · -- moved children (vacuous for a leaf)
      intro q nq hq hnq
      rw [hleaf] at hq
      simp at hq
  · -- internal root split
    have haC : aChild ≠ INVALID_PAGE := fun h => hleaf (htype.mp h)
    rw [if_neg haC] at hc1
    subst hc1
    have hql : ∀ q ∈ insIdx n.child_indices (lowerBoundIdx (entLtEnt cfg) n.entries e + 1) aChild,
        q ≠ p ∧ q < st.stream.length := by
      intro q hq
      rcases mem_insIdx _ _ _ _ hq with hmem | heq
      · exact hkid q hmem
      · rw [heq]
        exact hac haC
    have hnm : ∀ r, st.stream.length ≤ r →
        ¬ r ∈ (insIdx n.child_indices (lowerBoundIdx (entLtEnt cfg) n.entries e + 1)
          aChild).drop ((cfg.maxNumEntries + 1) / 2 - 1 + 1) := by
      intro r hr hmem
      have h2 := (hql r (List.mem_of_mem_drop hmem)).2
      omega
    have hpnm : ¬ p ∈ (insIdx n.child_indices (lowerBoundIdx (entLtEnt cfg) n.entries e + 1)
        aChild).drop ((cfg.maxNumEntries + 1) / 2 - 1 + 1) := by
      intro hmem
      exact (hql p (List.mem_of_mem_drop hmem)).1 rfl
    apply Exists.intro
    refine ⟨?_, ?_, ?_, ?_, ?_, ?_, ?_, ?_, ?_⟩
    · rw [show BTREE_MAX_DEPTH = 31 + 1 from rfl]
      rw [insert_and_balance]
      refine bind_step (run_getNode_some p st n hn) ?_
      simp only []
      rw [if_pos (by simp [List.isEmpty_iff, hleaf, haC])]
      refine bind_step (run_modifyNode _ _ _) ?_
      refine bind_step (run_modifyNode _ _ _) ?_
      refine bind_step (run_getNode_some p _
          ⟨n.page_number, n.parent_page_number,
            insIdx n.entries (lowerBoundIdx (entLtEnt cfg) n.entries e) e,
            insIdx n.child_indices (lowerBoundIdx (entLtEnt cfg) n.entries e + 1) aChild, true⟩
          (by simp only [cacheFind_update_eq, hn, Option.map_some'])) ?_
      simp only []
      rw [if_pos (show (insIdx n.entries (lowerBoundIdx (entLtEnt cfg) n.entries e) e).length >
        cfg.maxNumEntries from by rw [insIdx_length, hlen]; omega)]
      refine bind_step (allocate_grow cfg _ hsf) ?_
      dsimp only
      rw [hu1]
      refine bind_step (run_retrieve_fresh cfg n.parent_page_number st.stream.length _
        (by
          dsimp only
          rw [cacheFind_update_ne _ _ _ _ hlnp]
          rw [cacheFind_update_ne _ _ _ _ hlnp]
          exact hfresh _ (Nat.le_refl _))
        (by dsimp only; exact hg1) hbs hiv1) ?_
      dsimp only
      rw [insIdx_length, hlen]
      refine bind_step (run_atIdx_some _ hprom) ?_
      dsimp only
      rw [if_pos (by simp [List.isEmpty_iff, insIdx_ne_nil])]
      refine bind_step (run_modifyNode _ _ _) ?_
      refine bind_step (run_modifyNode _ _ _) ?_
      refine bind_step (run_adjust_children_in_cache _ _ _
          ⟨st.stream.length, n.parent_page_number, [],
            (insIdx n.child_indices (lowerBoundIdx (entLtEnt cfg) n.entries e + 1)
              aChild).drop ((cfg.maxNumEntries + 1) / 2 - 1 + 1), true⟩
          (by
            dsimp only
            rw [cacheFind_update_ne _ _ _ _ hlnp]
            rw [cacheFind_update_eq]
            rw [cacheFind_insert_of_none _ _ _
              (by
                rw [cacheFind_update_ne _ _ _ _ hlnp]
                rw [cacheFind_update_ne _ _ _ _ hlnp]
                exact hfresh _ (Nat.le_refl _))]
            rfl)) ?_
      dsimp only
      refine bind_step (run_modifyNode _ _ _) ?_
      refine bind_step (run_modifyNode _ _ _) ?_
      refine bind_step (run_modifyNode _ _ _) ?_
      dsimp only
      rw [if_pos hparent]
      refine bind_step (allocate_grow cfg _ hsf) ?_
      dsimp only
      rw [show (st.stream ++ [zeroBlock cfg]).length = st.stream.length + 1 from by simp]
      rw [hu2]
      refine bind_step (run_retrieve_fresh cfg INVALID_PAGE (st.stream.length + 1) _
        (by
          dsimp only
          rw [cacheFind_update_ne _ _ _ _ hrnp]
          rw [cacheFind_update_ne _ _ _ _ hrnp]
          rw [cacheFind_update_ne _ _ _ _ hrnl]
          rw [cacheFind_adjustCachePure_not_mem _ _ _ _ (hnm _ (by omega))]
          rw [cacheFind_update_ne _ _ _ _ hrnp]
          rw [cacheFind_update_ne _ _ _ _ hrnl]
          rw [cacheFind_insert_ne _ _ _ _ hrnl]
          rw [cacheFind_update_ne _ _ _ _ hrnp]
          rw [cacheFind_update_ne _ _ _ _ hrnp]
          exact hfresh _ (by omega))
        (by dsimp only; exact hg2) hbs hiv2) ?_
      dsimp only
      refine bind_step (run_modifyNode _ _ _) ?_
      refine bind_step (run_modifyNode _ _ _) ?_
      refine bind_step (run_setRootPage _ _) ?_
      refine bind_step (run_modifyNode _ _ _) ?_
      rw [run_modifyNode]
    · rfl
    · simp
    · rfl
    · rfl
    · -- node p
      dsimp only
      rw [cacheFind_update_ne _ _ _ _ hpne]
      rw [cacheFind_update_eq]
      rw [cacheFind_update_ne _ _ _ _ hpnr]
      rw [cacheFind_update_ne _ _ _ _ hpnr]
      rw [cacheFind_insert_ne _ _ _ _ hpnr]
      rw [cacheFind_update_eq]
      rw [cacheFind_update_eq]
      rw [cacheFind_update_ne _ _ _ _ hpne]
      rw [cacheFind_adjustCachePure_not_mem _ _ _ _ hpnm]
      rw [cacheFind_update_eq]
      rw [cacheFind_update_ne _ _ _ _ hpne]
      rw [cacheFind_insert_ne _ _ _ _ hpne]
      rw [cacheFind_update_eq]
      rw [cacheFind_update_eq]
      rw [hn]
      simp only [Option.map_some']
      rw [dropLast_take _ _ (by rw [insIdx_length, hlen]; omega)]
      simp [hpage]
    · -- sibling
      dsimp only
      rw [cacheFind_update_eq]
      rw [cacheFind_update_ne _ _ _ _ hlnp]
      rw [cacheFind_update_ne _ _ _ _ hlnr]
      rw [cacheFind_update_ne _ _ _ _ hlnr]
      rw [cacheFind_insert_ne _ _ _ _ hlnr]
      rw [cacheFind_update_ne _ _ _ _ hlnp]
      rw [cacheFind_update_ne _ _ _ _ hlnp]
      rw [cacheFind_update_eq]
      rw [cacheFind_adjustCachePure_not_mem _ _ _ _ (hnm _ (Nat.le_refl _))]
      rw [cacheFind_update_ne _ _ _ _ hlnp]
      rw [cacheFind_update_eq]
      rw [cacheFind_insert_of_none _ _ _
        (by
          rw [cacheFind_update_ne _ _ _ _ hlnp]
          rw [cacheFind_update_ne _ _ _ _ hlnp]
          exact hfresh _ (Nat.le_refl _))]
      simp
    · -- new root
      dsimp only
      rw [cacheFind_update_ne _ _ _ _ hrnl]
      rw [cacheFind_update_ne _ _ _ _ hrnp]
      rw [cacheFind_update_eq]
      rw [cacheFind_update_eq]
      rw [cacheFind_insert_of_none _ _ _
        (by
          rw [cacheFind_update_ne _ _ _ _ hrnp]
          rw [cacheFind_update_ne _ _ _ _ hrnp]
          rw [cacheFind_update_ne _ _ _ _ hrnl]
          rw [cacheFind_adjustCachePure_not_mem _ _ _ _ (hnm _ (by omega))]
          rw [cacheFind_update_ne _ _ _ _ hrnp]
          rw [cacheFind_update_ne _ _ _ _ hrnl]
          rw [cacheFind_insert_ne _ _ _ _ hrnl]
          rw [cacheFind_update_ne _ _ _ _ hrnp]
          rw [cacheFind_update_ne _ _ _ _ hrnp]
          exact hfresh _ (by omega))]
      simp
    · -- moved children re-parented
      intro q nq hq hnq
      have hqp : q ≠ p := (hql q (List.mem_of_mem_drop hq)).1
      have hqlt : q < st.stream.length := (hql q (List.mem_of_mem_drop hq)).2
      have hqnl : q ≠ st.stream.length := by omega
      have hqnr : q ≠ st.stream.length + 1 := by omega
      dsimp only
      rw [cacheFind_update_ne _ _ _ _ hqnl]
      rw [cacheFind_update_ne _ _ _ _ hqp]
      rw [cacheFind_update_ne _ _ _ _ hqnr]
      rw [cacheFind_update_ne _ _ _ _ hqnr]
      rw [cacheFind_insert_ne _ _ _ _ hqnr]
      rw [cacheFind_update_ne _ _ _ _ hqp]
      rw [cacheFind_update_ne _ _ _ _ hqp]
      rw [cacheFind_update_ne _ _ _ _ hqnl]
      rw [cacheFind_adjustCachePure_mem _ _ _ _ hq]
      rw [cacheFind_update_ne _ _ _ _ hqp]
      rw [cacheFind_update_ne _ _ _ _ hqnl]
      rw [cacheFind_insert_ne _ _ _ _ hqnl]
      rw [cacheFind_update_ne _ _ _ _ hqp]
      rw [cacheFind_update_ne _ _ _ _ hqp]
      rw [hnq]
      rfl

def n8 : BtreeNode :=
  ⟨0, INVALID_PAGE,
    [⟨[49], [1, 1], 0⟩, ⟨[50], [2, 2], 0⟩, ⟨[51], [3, 3], 0⟩, ⟨[52], [4, 4], 0⟩], [], false⟩

def st8 : DirState := ⟨[zeroBlock cfgA], 0, INVALID_PAGE, 0, [(0, n8)]⟩

def e8 : DirEntry := ⟨[53], [5, 5], 0⟩

def ents8 : List DirEntry :=
  [⟨[49], [1, 1], 0⟩, ⟨[50], [2, 2], 0⟩, ⟨[51], [3, 3], 0⟩, ⟨[52], [4, 4], 0⟩, ⟨[53], [5, 5], 0⟩]

/-- Witness for C8: a concrete root-leaf split with `MAX_NUM_ENTRIES = 4`,
inserting a fifth entry; the promoted entry is the second one, page 0 keeps
one entry, page 1 receives three, and page 2 becomes the new root. -/
theorem C8_split_mechanics_witness :
    ∃ st' : DirState,
      (insert_and_balance cfgA BTREE_MAX_DEPTH 0 e8 INVALID_PAGE).run st8 = Except.ok ((), st') ∧
      st'.rootPage = 2 ∧
      st'.stream = st8.stream ++ [zeroBlock cfgA, zeroBlock cfgA] ∧
      st'.startFreePage = st8.startFreePage ∧
      st'.numFreePage = st8.numFreePage ∧
      cacheFind st'.cache 0 =
        some ⟨0, 2, ents8.take 1, ([] : List Nat).take 2, true⟩ ∧
      cacheFind st'.cache 1 =
        some ⟨1, 2, ents8.drop 2, ([] : List Nat).drop 2, true⟩ ∧
      cacheFind st'.cache 2 =
        some ⟨2, INVALID_PAGE, [⟨[50], [2, 2], 0⟩], [0, 1], true⟩ ∧
      (∀ q nq, q ∈ ([] : List Nat).drop 2 → cacheFind st8.cache q = some nq →
        cacheFind st'.cache q =
          some ⟨nq.page_number, 1, nq.entries, nq.child_indices, true⟩) :=
  C8_split_mechanics cfgA st8 0 n8 e8 INVALID_PAGE ⟨[50], [2, 2], 0⟩ 4 1 1 2 ents8 []
    (by decide) rfl rfl (by decide) (by decide) (by decide) rfl (by decide)
    (by
      intro q hq
      have hq1 : 1 ≤ q := by simpa using hq
      show (if 0 = q then some n8 else cacheFind [] q) = none
      rw [if_neg (by omega : ¬ 0 = q)]
      rfl)
    (by decide)
    (by simp [n8])
    (by simp [n8])
    (fun h => absurd rfl h)
    (by decide) rfl rfl rfl (by decide)
    (by rw [if_pos rfl]; rfl)
    (by decide)

theorem lowerBoundIdx_le_length {α β : Type} (lt : α → β → Bool) (l : List α) (v : β) :
    lowerBoundIdx lt l v ≤ l.length := by
  induction l with
  | nil => simp [lowerBoundIdx]
  | cons a rest ih =>
    rw [lowerBoundIdx]
    by_cases h : lt a v = true
    · rw [if_pos h]
      simpa using ih
    · rw [if_neg h]
      simp

theorem insIdx_get_self {α : Type} (l : List α) (i : Nat) (v : α) (h : i ≤ l.length) :
    (insIdx l i v).get? i = some v := by
  induction l generalizing i with
  | nil =>
    cases i with
    | zero => rfl
    | succ k => simp at h
  | cons a rest ih =>
    cases i with
    | zero => rfl
    | succ k =>
      rw [insIdx]
      simp only [List.get?_cons_succ]
      exact ih k (by simpa using h)

theorem delIdx_insIdx {α : Type} (l : List α) (i : Nat) (v : α) (h : i ≤ l.length) :
    delIdx (insIdx l i v) i = l := by
  induction l generalizing i with
  | nil =>
    cases i with
    | zero => rfl
    | succ k => simp at h
  | cons a rest ih =>
    cases i with
    | zero => rfl
    | succ k =>
      rw [insIdx, delIdx]
      rw [ih k (by simpa using h)]

theorem lowerBoundIdx_entLtEnt_name (cfg : Config) (l : List DirEntry) (x id : List Byte)
    (ty : Nat) :
    lowerBoundIdx (entLtEnt cfg) l ⟨x, id, ty⟩ = lowerBoundIdx (entLtName cfg) l x := by
  induction l with
  | nil => rfl
  | cons a rest ih =>
    rw [lowerBoundIdx, lowerBoundIdx]
    rw [show entLtEnt cfg a ⟨x, id, ty⟩ = entLtName cfg a x from rfl]
    rw [ih]

theorem lowerBoundIdx_insIdx_self {α β : Type} (lt : α → β → Bool) (l : List α) (v : α)
    (x : β) (h : lt v x = false) :
    lowerBoundIdx lt (insIdx l (lowerBoundIdx lt l x) v) x = lowerBoundIdx lt l x := by
  induction l with
  | nil =>
    rw [lowerBoundIdx]
    rw [show insIdx ([] : List α) 0 v = [v] from rfl]
    rw [lowerBoundIdx, lowerBoundIdx, h]
    rfl
  | cons a rest ih =>
    rw [lowerBoundIdx]
    by_cases ha : lt a x = true
    · rw [if_pos ha]
      rw [show insIdx (a :: rest) (lowerBoundIdx lt rest x + 1) v =
        a :: insIdx rest (lowerBoundIdx lt rest x) v from rfl]
      rw [lowerBoundIdx, if_pos ha, ih]
    · rw [if_neg ha]
      rw [show insIdx (a :: rest) 0 v = v :: a :: rest from rfl]
      rw [lowerBoundIdx, h]
      rfl

/-- C7 (amended): when the tree is a single cached root leaf that is not full
and the name `x` is absent at its lower-bound position, `add_entry(x, id, ty)`
followed by `remove_entry(x)` restores the directory exactly: the stream, the
root page, the free-list head and length are all unchanged, the root node's
entry list returns to its original value (only its dirty flag is left set),
and no other cache slot is touched.  The original claim's premise "does not
split the root" is too weak: a split of a non-root node also allocates a
page that the removal does not free (see the counterexample, where the
removal's `balance_up` returns at once because the split leaf retains
`MAX_NUM_ENTRIES / 2` entries).  The restoration proved here is scoped to
the single-root-leaf tree; it is not asserted for deeper trees, where a
removal can rotate entries between siblings even after an allocation-free
insertion. -/
theorem C7_no_split_add_then_remove_restores (cfg : Config) (st : DirState) (r : Nat)
    (n : BtreeNode) (x id : List Byte) (ty : Nat) (i : Nat)
    (hr : st.rootPage = r)
    (hriv : r ≠ INVALID_PAGE)
    (hn : cacheFind st.cache r = some n)
    (hpage : n.page_number = r)
    (hparent : n.parent_page_number = INVALID_PAGE)
    (hleaf : n.child_indices = [])
    (hfull : n.entries.length < cfg.maxNumEntries)
    (hxlen : ¬ x.length > cfg.maxFilenameLength)
    (hi : i = lowerBoundIdx (entLtName cfg) n.entries x)
    (habs : entryEqAt n i x = false)
    (hirr : cfg.lessThan x x = false) :
    ∃ st₁ st₂ : DirState,
      (add_entry cfg x id ty).run st = Except.ok (true, st₁) ∧
      (remove_entry cfg x).run st₁ = Except.ok (some (id, u32 ty), st₂) ∧
      st₂.stream = st.stream ∧
      st₂.rootPage = st.rootPage ∧
      st₂.startFreePage = st.startFreePage ∧
      st₂.numFreePage = st.numFreePage ∧
      cacheFind st₂.cache r =
        some ⟨n.page_number, n.parent_page_number, n.entries, n.child_indices, true⟩ ∧
      (∀ q, q ≠ r → cacheFind st₂.cache q = cacheFind st.cache q) := by
  subst hpage hi
  have hle : lowerBoundIdx (entLtName cfg) n.entries x ≤ n.entries.length :=
    lowerBoundIdx_le_length _ _ _
  have hget : (insIdx n.entries (lowerBoundIdx (entLtName cfg) n.entries x)
      ⟨x, id, u32 ty⟩).get? (lowerBoundIdx (entLtName cfg) n.entries x) =
      some ⟨x, id, u32 ty⟩ :=
    insIdx_get_self _ _ _ hle
  have hfind1 : (find_node cfg x).run st =
      Except.ok ((some n.page_number, lowerBoundIdx (entLtName cfg) n.entries x, false),
        st) := by
    rw [find_node]
    refine bind_step_at _ _ _ (st) (some n) _ ?_ ?_
    · rw [get_root_node]
      refine bind_step (run_getRootPage st) ?_
      rw [hr, if_neg hriv]
      refine bind_step (run_retrieve_hit cfg INVALID_PAGE n.page_number st n hn
        (Or.inl rfl)) ?_
      exact run_pure _ _
    · show (findLoop cfg BTREE_MAX_DEPTH n x).run st = _
      rw [show BTREE_MAX_DEPTH = 31 + 1 from rfl, findLoop]
      rw [if_neg (by simp [habs])]
      rw [if_pos (by simp [hleaf])]
      exact run_pure _ _
  have hins : (insert_and_balance cfg BTREE_MAX_DEPTH n.page_number
      ⟨x, id, u32 ty⟩ INVALID_PAGE).run st =
      Except.ok ((), { st with cache := cacheUpdate st.cache n.page_number (fun m => { m with entries := insIdx m.entries (lowerBoundIdx (entLtEnt cfg) n.entries ⟨x, id, u32 ty⟩) ⟨x, id, u32 ty⟩, dirty := true }) }) := by
    rw [show BTREE_MAX_DEPTH = 31 + 1 from rfl, insert_and_balance]
    refine bind_step (run_getNode_some n.page_number st n hn) ?_
    rw [if_neg (by simp)]
    refine bind_step (run_pure () st) ?_
    refine bind_step (run_modifyNode _ _ _) ?_
    refine bind_step (run_getNode_some n.page_number _
        ⟨n.page_number, n.parent_page_number,
          insIdx n.entries (lowerBoundIdx (entLtEnt cfg) n.entries ⟨x, id, u32 ty⟩)
            ⟨x, id, u32 ty⟩, n.child_indices, true⟩
        (by simp only [cacheFind_update_eq, hn, Option.map_some'])) ?_
    simp only []
    rw [if_neg (show ¬ (insIdx n.entries
      (lowerBoundIdx (entLtEnt cfg) n.entries ⟨x, id, u32 ty⟩)
      ⟨x, id, u32 ty⟩).length > cfg.maxNumEntries from by rw [insIdx_length]; omega)]
    exact run_pure _ _
  rw [lowerBoundIdx_entLtEnt_name] at hins
  apply Exists.intro
  apply Exists.intro
  refine ⟨?_, ?_, ?_, ?_, ?_, ?_, ?_, ?_⟩
  · -- add_entry run
    rw [add_entry, if_neg hxlen]
    refine bind_step hfind1 ?_
    simp only []
    rw [if_neg (by simp)]
    refine bind_step hins ?_
    rw [run_pure]
  · -- remove_entry run
    rw [remove_entry, if_neg hxlen]
    refine bind_step_at _ _ _ ({ st with cache := cacheUpdate st.cache n.page_number (fun m => { m with entries := insIdx m.entries (lowerBoundIdx (entLtName cfg) n.entries x) ⟨x, id, u32 ty⟩, dirty := true }) }) ((some n.page_number, lowerBoundIdx (entLtName cfg) n.entries x, true)) _ ?_ ?_
    · rw [find_node]
      refine bind_step_at _ _ _ ({ st with cache := cacheUpdate st.cache n.page_number (fun m => { m with entries := insIdx m.entries (lowerBoundIdx (entLtName cfg) n.entries x) ⟨x, id, u32 ty⟩, dirty := true }) }) (some (⟨n.page_number, n.parent_page_number,
          insIdx n.entries (lowerBoundIdx (entLtName cfg) n.entries x) ⟨x, id, u32 ty⟩,
          n.child_indices, true⟩ : BtreeNode)) _ ?_ ?_
      · rw [get_root_node]
        refine bind_step (run_getRootPage _) ?_
        dsimp only
        rw [hr, if_neg hriv]
        refine bind_step (run_retrieve_hit cfg INVALID_PAGE n.page_number _
          ⟨n.page_number, n.parent_page_number,
            insIdx n.entries (lowerBoundIdx (entLtName cfg) n.entries x) ⟨x, id, u32 ty⟩,
            n.child_indices, true⟩
          (by dsimp only; simp only [cacheFind_update_eq, hn, Option.map_some'])
          (Or.inl rfl)) ?_
        exact run_pure _ _
      · show (findLoop cfg BTREE_MAX_DEPTH _ x).run _ = _
        rw [show BTREE_MAX_DEPTH = 31 + 1 from rfl, findLoop]
        simp only []
        rw [lowerBoundIdx_insIdx_self (entLtName cfg) n.entries ⟨x, id, u32 ty⟩ x hirr]
        have hgetE : (insIdx n.entries (lowerBoundIdx (entLtName cfg) n.entries x)
            ⟨x, id, u32 ty⟩)[lowerBoundIdx (entLtName cfg) n.entries x]? =
            some (⟨x, id, u32 ty⟩ : DirEntry) := by
          rw [← List.get?_eq_getElem?]
          exact hget
        rw [if_pos (by simp [entryEqAt, hgetE])]
        exact run_pure _ _
    · simp only []
      rw [if_neg (by simp)]
      refine bind_step (run_getNode_some n.page_number _
          ⟨n.page_number, n.parent_page_number,
            insIdx n.entries (lowerBoundIdx (entLtName cfg) n.entries x) ⟨x, id, u32 ty⟩,
            n.child_indices, true⟩
          (by dsimp only; simp only [cacheFind_update_eq, hn, Option.map_some'])) ?_
      simp only []
      refine bind_step (run_atIdx_some _ hget) ?_
      refine bind_step_at _ _ _ ({ st with cache := cacheUpdate (cacheUpdate st.cache n.page_number (fun m => { m with entries := insIdx m.entries (lowerBoundIdx (entLtName cfg) n.entries x) ⟨x, id, u32 ty⟩, dirty := true })) n.page_number (fun m => { m with entries := delIdx m.entries (lowerBoundIdx (entLtName cfg) n.entries x), dirty := true }) }) (n.page_number) _ ?_ ?_
      · rw [replace_with_sub_entry]
        refine bind_step (show (dirCheck (decide (0 < BTREE_MAX_DEPTH))).run _ =
          Except.ok ((), _) from by rw [run_dirCheck, if_pos (by decide)]) ?_
        refine bind_step (run_getNode_some n.page_number _
            ⟨n.page_number, n.parent_page_number,
              insIdx n.entries (lowerBoundIdx (entLtName cfg) n.entries x) ⟨x, id, u32 ty⟩,
              n.child_indices, true⟩
            (by dsimp only; simp only [cacheFind_update_eq, hn, Option.map_some'])) ?_
        simp only []
        rw [if_pos (by simp [hleaf])]
        refine bind_step (run_modifyNode _ _ _) ?_
        exact run_pure _ _
      · simp only []
        refine bind_step_at _ _ _ ({ st with cache := cacheUpdate (cacheUpdate st.cache n.page_number (fun m => { m with entries := insIdx m.entries (lowerBoundIdx (entLtName cfg) n.entries x) ⟨x, id, u32 ty⟩, dirty := true })) n.page_number (fun m => { m with entries := delIdx m.entries (lowerBoundIdx (entLtName cfg) n.entries x), dirty := true }) }) (()) _ ?_ ?_
        · rw [show BTREE_MAX_DEPTH = 31 + 1 from rfl, balance_up]
          refine bind_step (run_getNode_some n.page_number _
              ⟨n.page_number, n.parent_page_number,
                delIdx (insIdx n.entries (lowerBoundIdx (entLtName cfg) n.entries x)
                  ⟨x, id, u32 ty⟩) (lowerBoundIdx (entLtName cfg) n.entries x),
                n.child_indices, true⟩
              (by
                dsimp only
                simp only [cacheFind_update_eq, hn, Option.map_some'])) ?_
          simp only []
          rw [if_neg (by simp [hleaf])]
          rw [if_pos (Or.inl hparent)]
          exact run_pure _ _
        · rw [run_pure]
  · dsimp only
  · dsimp only
  · dsimp only
  · dsimp only
  · -- root node restored up to the dirty flag
    dsimp only
    rw [cacheFind_update_eq, cacheFind_update_eq, hn]
    simp only [Option.map_some']
    rw [delIdx_insIdx _ _ _ hle]
  · intro q hq
    dsimp only
    rw [cacheFind_update_ne _ _ _ _ hq, cacheFind_update_ne _ _ _ _ hq]

/-- Witness for the amended C7: adding `"b"` to a one-entry root leaf and
removing it again restores the original directory state except the dirty
flag. -/
theorem C7_no_split_add_then_remove_restores_witness :
    ∃ st₁ st₂ : DirState,
      (add_entry cfgA [98] [8, 8] 0).run stOneLeaf = Except.ok (true, st₁) ∧
      (remove_entry cfgA [98]).run st₁ = Except.ok (some ([8, 8], u32 0), st₂) ∧
      st₂.stream = stOneLeaf.stream ∧
      st₂.rootPage = stOneLeaf.rootPage ∧
      st₂.startFreePage = stOneLeaf.startFreePage ∧
      st₂.numFreePage = stOneLeaf.numFreePage ∧
      cacheFind st₂.cache 0 = some ⟨0, INVALID_PAGE, [leafEntryA], [], true⟩ ∧
      (∀ q, q ≠ 0 → cacheFind st₂.cache q = cacheFind stOneLeaf.cache q) :=
  C7_no_split_add_then_remove_restores cfgA stOneLeaf 0
    ⟨0, INVALID_PAGE, [leafEntryA], [], false⟩ [98] [8, 8] 0 1
    rfl (by decide) (by decide) rfl rfl rfl (by decide) (by decide) (by decide)
    (by decide) (by decide)
